import Mathlib

/-!
Verification of the OpenChoreo Backstage plugins core: the CTD-to-template
converter (`CtdToTemplateConverter.ts`), the workflow-parameter schema
flattener (`BuildWorkflowParametersExtension.tsx`) and the entity provider
(`OpenChoreoEntityProvider`).  The TypeScript code is shallowly embedded:
JavaScript objects of dynamic (`any`) shape become `Json` values, JSON-Schema
(draft 7) input trees become the mutual inductive `JSchema`, and JavaScript
truthiness tests (`if (x)`, `x || y`) are reproduced by explicit helpers.
-/

/-- JSON values; used both for opaque fragments of input schemas and for the
dynamically shaped (`any`) objects the converter produces.  Object fields are
kept in insertion order, as JavaScript objects do. -/
inductive Json : Type where
  | null : Json
  | bool (b : Bool) : Json
  | num (n : Int) : Json
  | str (s : String) : Json
  | arr (elems : List Json) : Json
  | obj (fields : List (String × Json)) : Json

/-- First-match association lookup, the semantics of reading a key from a
JavaScript object rendered as an ordered field list. -/
def jLookup : List (String × Json) → String → Option Json
  | [], _ => none
  | (k, v) :: rest, key => if k = key then some v else jLookup rest key

/-- Reading property `key` of a JSON value (`undefined`, i.e. `none`, when the
value is not an object or the key is absent). -/
def Json.get? : Json → String → Option Json
  | .obj fields, key => jLookup fields key
  | _, _ => none

/-- JavaScript assignment `o[k] = v` on an object rendered as an ordered field
list: an existing key keeps its position and gets the new value, a new key is
appended at the end. -/
def jSet : List (String × Json) → String → Json → List (String × Json)
  | [], key, v => [(key, v)]
  | (k, w) :: rest, key, v =>
      if k = key then (k, v) :: rest else (k, w) :: jSet rest key v

/-- JavaScript string truthiness: only the empty string is falsy. -/
def strTruthy : Option String → Bool
  | some s => s ≠ ""
  | none => false

/-- JavaScript `a || b` where `a` is an optional string (empty string falls
through to the fallback). -/
def strOr (a : Option String) (b : String) : String :=
  match a with
  | some s => if s = "" then b else s
  | none => b

/-- JavaScript truthiness of an optional number (`0` and `undefined` falsy),
used for `if (schema.minLength)`-style guards. -/
def natTruthy : Option Nat → Bool
  | some n => n ≠ 0
  | none => false

/-- `word.charAt(0).toUpperCase() + word.slice(1)` from the TypeScript helpers
(`formatTitle` / `formatFieldName`). -/
def jsCapitalize (w : String) : String :=
  match w.data with
  | [] => ""
  | c :: rest => String.mk (c.toUpper :: rest)

/-- Character-list worker for `jsSplitChar`. -/
def jsSplitCharAux (sep : Char) : List Char → List Char → List String
  | [], acc => [String.mk acc.reverse]
  | c :: rest, acc =>
      if c = sep then String.mk acc.reverse :: jsSplitCharAux sep rest []
      else jsSplitCharAux sep rest (c :: acc)

/-- JavaScript `s.split(sep)` for a one-character separator. -/
def jsSplitChar (sep : Char) (s : String) : List String :=
  jsSplitCharAux sep s.data []

/-- `formatTitle` of `CtdToTemplateConverter`: split on hyphens, capitalize
each word, join with spaces (for example "web-service" to "Web Service"). -/
def formatTitle (name : String) : String :=
  String.intercalate " " ((jsSplitChar '-' name).map jsCapitalize)

/-- `formatFieldName` of `BuildWorkflowParametersExtension`: split on dots,
capitalize each part, join with spaces ("docker.context" to "Docker Context"). -/
def formatFieldName (path : String) : String :=
  String.intercalate " " ((jsSplitChar '.' path).map jsCapitalize)

/-- `'a/b'.replace('/', '-')`: JavaScript `String.replace` with a string
pattern replaces only the first occurrence. -/
def jsReplaceFirstChar (s : String) (from_ : Char) (to_ : Char) : String :=
  match s.data.findIdx? (· = from_) with
  | none => s
  | some i => String.mk (s.data.set i to_)

mutual
/-- Embedding of the `JSONSchema7` input trees consumed by the converter and
the flattener.  Only the attributes the TypeScript code reads are carried; the
`if` condition of a conditional is copied byte-for-byte by the code, so it is
kept opaque as a `Json` value. -/
inductive JSchema : Type where
  | mk
      (type : Option String)
      (title : Option String)
      (description : Option String)
      (dflt : Option Json)
      (enum : Option (List Json))
      (pattern : Option String)
      (minLength : Option Nat)
      (maxLength : Option Nat)
      (format : Option String)
      (minimum : Option Int)
      (maximum : Option Int)
      (multipleOf : Option Int)
      (items : Option JItems)
      (minItems : Option Nat)
      (maxItems : Option Nat)
      (uniqueItems : Option Bool)
      (properties : Option (List (String × JSDef)))
      (addProps : Option JSDef)
      (required : Option (List String))
      (deps : Option (List (String × JDep)))
      (ifS : Option Json)
      (thenS : Option JSDef)
      (elseS : Option JSDef)
      (allOf : Option (List JSDef)) : JSchema

/-- `JSONSchema7Definition`: either a boolean schema or a full schema. -/
inductive JSDef : Type where
  | bool (b : Bool) : JSDef
  | sch (s : JSchema) : JSDef

/-- The `items` keyword: one schema, or a tuple (array) of schemas. -/
inductive JItems : Type where
  | single (d : JSDef) : JItems
  | tuple (ds : List JSDef) : JItems

/-- A `dependencies` entry: a required-sibling name list, a boolean schema, or
a schema dependency. -/
inductive JDep : Type where
  | propList (names : List String) : JDep
  | boolDep (b : Bool) : JDep
  | schDep (s : JSchema) : JDep
end

def JSchema.type : JSchema → Option String
  | .mk t _ _ _ _ _ _ _ _ _ _ _ _ _ _ _ _ _ _ _ _ _ _ _ => t

def JSchema.title : JSchema → Option String
  | .mk _ t _ _ _ _ _ _ _ _ _ _ _ _ _ _ _ _ _ _ _ _ _ _ => t

def JSchema.description : JSchema → Option String
  | .mk _ _ d _ _ _ _ _ _ _ _ _ _ _ _ _ _ _ _ _ _ _ _ _ => d

def JSchema.dflt : JSchema → Option Json
  | .mk _ _ _ d _ _ _ _ _ _ _ _ _ _ _ _ _ _ _ _ _ _ _ _ => d

def JSchema.enum : JSchema → Option (List Json)
  | .mk _ _ _ _ e _ _ _ _ _ _ _ _ _ _ _ _ _ _ _ _ _ _ _ => e

def JSchema.pattern : JSchema → Option String
  | .mk _ _ _ _ _ p _ _ _ _ _ _ _ _ _ _ _ _ _ _ _ _ _ _ => p

def JSchema.minLength : JSchema → Option Nat
  | .mk _ _ _ _ _ _ m _ _ _ _ _ _ _ _ _ _ _ _ _ _ _ _ _ => m

def JSchema.maxLength : JSchema → Option Nat
  | .mk _ _ _ _ _ _ _ m _ _ _ _ _ _ _ _ _ _ _ _ _ _ _ _ => m

def JSchema.format : JSchema → Option String
  | .mk _ _ _ _ _ _ _ _ f _ _ _ _ _ _ _ _ _ _ _ _ _ _ _ => f

def JSchema.minimum : JSchema → Option Int
  | .mk _ _ _ _ _ _ _ _ _ m _ _ _ _ _ _ _ _ _ _ _ _ _ _ => m

def JSchema.maximum : JSchema → Option Int
  | .mk _ _ _ _ _ _ _ _ _ _ m _ _ _ _ _ _ _ _ _ _ _ _ _ => m

def JSchema.multipleOf : JSchema → Option Int
  | .mk _ _ _ _ _ _ _ _ _ _ _ m _ _ _ _ _ _ _ _ _ _ _ _ => m

def JSchema.items : JSchema → Option JItems
  | .mk _ _ _ _ _ _ _ _ _ _ _ _ i _ _ _ _ _ _ _ _ _ _ _ => i

def JSchema.minItems : JSchema → Option Nat
  | .mk _ _ _ _ _ _ _ _ _ _ _ _ _ m _ _ _ _ _ _ _ _ _ _ => m

def JSchema.maxItems : JSchema → Option Nat
  | .mk _ _ _ _ _ _ _ _ _ _ _ _ _ _ m _ _ _ _ _ _ _ _ _ => m

def JSchema.uniqueItems : JSchema → Option Bool
  | .mk _ _ _ _ _ _ _ _ _ _ _ _ _ _ _ u _ _ _ _ _ _ _ _ => u

def JSchema.properties : JSchema → Option (List (String × JSDef))
  | .mk _ _ _ _ _ _ _ _ _ _ _ _ _ _ _ _ p _ _ _ _ _ _ _ => p

def JSchema.addProps : JSchema → Option JSDef
  | .mk _ _ _ _ _ _ _ _ _ _ _ _ _ _ _ _ _ a _ _ _ _ _ _ => a

def JSchema.required : JSchema → Option (List String)
  | .mk _ _ _ _ _ _ _ _ _ _ _ _ _ _ _ _ _ _ r _ _ _ _ _ => r

def JSchema.deps : JSchema → Option (List (String × JDep))
  | .mk _ _ _ _ _ _ _ _ _ _ _ _ _ _ _ _ _ _ _ d _ _ _ _ => d

def JSchema.ifS : JSchema → Option Json
  | .mk _ _ _ _ _ _ _ _ _ _ _ _ _ _ _ _ _ _ _ _ i _ _ _ => i

def JSchema.thenS : JSchema → Option JSDef
  | .mk _ _ _ _ _ _ _ _ _ _ _ _ _ _ _ _ _ _ _ _ _ t _ _ => t

def JSchema.elseS : JSchema → Option JSDef
  | .mk _ _ _ _ _ _ _ _ _ _ _ _ _ _ _ _ _ _ _ _ _ _ e _ => e

def JSchema.allOf : JSchema → Option (List JSDef)
  | .mk _ _ _ _ _ _ _ _ _ _ _ _ _ _ _ _ _ _ _ _ _ _ _ a => a

/-- A schema with no attributes at all (every keyword absent); base for
building small concrete schemas in witnesses. -/
def JSchema.empty : JSchema :=
  .mk none none none none none none none none none none none none
     none none none none none none none none none none none none

/-- The test `prop.type === 'object' && prop.properties` guarding recursion in
the flattener (an empty `properties` object is truthy in JavaScript). -/
def JSchema.isObjectWithProps (s : JSchema) : Bool :=
  s.type = some "object" && s.properties.isSome

/-! ## Schema Flattener (`flattenSchema` in `BuildWorkflowParametersExtension.tsx`) -/

/-- The `FlattenedField` interface of the extension. -/
structure FlatField where
  path : String
  displayName : String
  type : String
  required : Bool
  dflt : Option Json
  description : Option String
  parentPath : Option String
  parentTitle : Option String

/-- `parentPath ? parentPath + '.' + key : key`. -/
def joinPath (pp key : String) : String :=
  if pp = "" then key else pp ++ "." ++ key

mutual
/-- `flattenSchema(schema, parentPath, parentRequired, parentTitle)`. -/
def flattenSchema : JSchema → String → List String → Option String → List FlatField
  | .mk _ _ _ _ _ _ _ _ _ _ _ _ _ _ _ _ props _ req _ _ _ _ _, pp, pr, pt =>
    match props with
    | none => []
    | some ps => flattenProps ps (req.getD []) pp pr pt

/-- The `Object.entries(schema.properties).forEach` loop of `flattenSchema`,
with `req` the surrounding schema's `required || []`. -/
def flattenProps :
    List (String × JSDef) → List String → String → List String → Option String →
    List FlatField
  | [], _, _, _, _ => []
  | (key, d) :: rest, req, pp, pr, pt =>
    (match d with
     | .bool _ => []
     | .sch prop =>
       if prop.isObjectWithProps then
         flattenSchema prop (joinPath pp key) req
           (some (strOr prop.title (formatFieldName key)))
       else
         [{ path := joinPath pp key
            displayName := strOr prop.title (formatFieldName key)
            type := strOr prop.type "string"
            required := (req.contains key || pr.contains (joinPath pp key))
            dflt := prop.dflt
            description := prop.description
            parentPath := if pp = "" then none else some pp
            parentTitle := pt }]) ++ flattenProps rest req pp pr pt
end

/-! ### Leaf trails: the claim-side description of `flatten`'s paths

`specLeafTrails` follows the specification's wording: walk the property tree
in declaration order, descend into object-typed properties with nested
properties, skip boolean schema definitions, and record for each leaf the list
of ancestor property keys ending in the leaf's own key. -/

mutual
/-- Ancestor-key trails of the leaves of a schema, in declaration order
(claim-side description used to state the `flatten` path properties). -/
def specLeafTrails : JSchema → List (List String)
  | .mk _ _ _ _ _ _ _ _ _ _ _ _ _ _ _ _ props _ _ _ _ _ _ _ =>
    match props with
    | none => []
    | some ps => specLeafTrailsProps ps

/-- Leaf trails of a property list. -/
def specLeafTrailsProps : List (String × JSDef) → List (List String)
  | [] => []
  | (key, d) :: rest =>
    (match d with
     | .bool _ => []
     | .sch prop =>
       if prop.isObjectWithProps then
         (specLeafTrails prop).map (fun tr => key :: tr)
       else
         [[key]]) ++ specLeafTrailsProps rest
end

/-- Fold a key trail onto a parent path with the `flatten` path constructor. -/
def joinAll : String → List String → String
  | pp, [] => pp
  | pp, key :: tr => joinAll (joinPath pp key) tr

mutual
/-- The paths returned by `flattenSchema` are exactly the leaf trails joined
onto the parent path with dots, in order. -/
theorem flatten_paths_eq (s : JSchema) (pp : String) (pr : List String)
    (pt : Option String) :
    (flattenSchema s pp pr pt).map FlatField.path =
      (specLeafTrails s).map (joinAll pp) := by
  cases s with
  | mk ty ti de df en pa f7 f8 f9 f10 f11 f12 f13 f14 f15 f16 props ap req dp c1 c2 c3 c4 =>
    cases props with
    | none => simp [flattenSchema, specLeafTrails]
    | some ps =>
      simpa [flattenSchema, specLeafTrails] using
        flattenProps_paths_eq ps (req.getD []) pp pr pt

/-- Property-list version of `flatten_paths_eq`. -/
theorem flattenProps_paths_eq (l : List (String × JSDef)) (req : List String)
    (pp : String) (pr : List String) (pt : Option String) :
    (flattenProps l req pp pr pt).map FlatField.path =
      (specLeafTrailsProps l).map (joinAll pp) := by
  match l with
  | [] => simp [flattenProps, specLeafTrailsProps]
  | (key, d) :: rest =>
    match d with
    | .bool b =>
      simpa [flattenProps, specLeafTrailsProps] using
        flattenProps_paths_eq rest req pp pr pt
    | .sch prop =>
      by_cases hobj : prop.isObjectWithProps
      · have hmain := flatten_paths_eq prop (joinPath pp key) req
          (some (strOr prop.title (formatFieldName key)))
        have hrest := flattenProps_paths_eq rest req pp pr pt
        have hmap : ∀ (trs : List (List String)),
            (trs.map (fun tr => key :: tr)).map (joinAll pp) =
              trs.map (joinAll (joinPath pp key)) := by
          intro trs
          rw [List.map_map]
          apply List.map_congr_left
          intro tr _
          simp [Function.comp, joinAll]
        simp only [flattenProps, specLeafTrailsProps, hobj, if_true,
          List.map_append, hmain, hrest, hmap]
      · have hrest := flattenProps_paths_eq rest req pp pr pt
        simp [flattenProps, specLeafTrailsProps, hobj, hrest, joinAll]
end

/-! ### Well-formedness of a flattened schema tree

The flatten-path uniqueness claim needs, beyond the data model's "property
keys unique within one object", that keys are nonempty and contain no dot
(both are invisible to the dot-joined paths, see the counterexample below). -/

mutual
/-- Keys are pairwise distinct, nonempty and dot-free at every level the
flattener recurses into. -/
def wfFlat : JSchema → Bool
  | .mk _ _ _ _ _ _ _ _ _ _ _ _ _ _ _ _ props _ _ _ _ _ _ _ =>
    match props with
    | none => true
    | some ps =>
        decide ((ps.map Prod.fst).Nodup) &&
        (ps.map Prod.fst).all (fun k => decide (k ≠ "") && decide ('.' ∉ k.data)) &&
        wfFlatProps ps

/-- Property-list part of `wfFlat`. -/
def wfFlatProps : List (String × JSDef) → Bool
  | [] => true
  | (_, d) :: rest =>
    (match d with
     | .bool _ => true
     | .sch prop => if prop.isObjectWithProps then wfFlat prop else true) &&
    wfFlatProps rest
end

/-- Every leaf trail is nonempty and starts with a key of the property list it
came from. -/
theorem specTrailsProps_head (ps : List (String × JSDef)) :
    ∀ tr ∈ specLeafTrailsProps ps, ∃ k tl, tr = k :: tl ∧ k ∈ ps.map Prod.fst := by
  induction ps with
  | nil => simp [specLeafTrailsProps]
  | cons p rest ih =>
    obtain ⟨key, d⟩ := p
    intro tr htr
    cases d with
    | bool b =>
      simp only [specLeafTrailsProps, List.nil_append] at htr
      obtain ⟨k, tl, heq, hk⟩ := ih tr htr
      exact ⟨k, tl, heq, by simp [hk]⟩
    | sch prop =>
      by_cases hobj : prop.isObjectWithProps
      · simp only [specLeafTrailsProps, hobj, if_true, List.mem_append,
          List.mem_map] at htr
        cases htr with
        | inl h1 =>
          obtain ⟨tl, _, htl⟩ := h1
          exact ⟨key, tl, htl.symm, by simp⟩
        | inr h2 =>
          obtain ⟨k, tl, heq, hk⟩ := ih tr h2
          exact ⟨k, tl, heq, by simp [hk]⟩
      · simp only [specLeafTrailsProps, hobj, Bool.false_eq_true, if_false,
          List.singleton_append, List.mem_cons] at htr
        cases htr with
        | inl h1 => exact ⟨key, [], h1, by simp⟩
        | inr h2 =>
          obtain ⟨k, tl, heq, hk⟩ := ih tr h2
          exact ⟨k, tl, heq, by simp [hk]⟩

mutual
/-- Under `wfFlat`, the leaf trails of a schema are pairwise distinct. -/
theorem specTrails_nodup (s : JSchema) (h : wfFlat s = true) :
    (specLeafTrails s).Nodup := by
  cases s with
  | mk ty ti de df en pa f7 f8 f9 f10 f11 f12 f13 f14 f15 f16 props ap req dp c1 c2 c3 c4 =>
    cases props with
    | none => simp [specLeafTrails]
    | some ps =>
      simp only [wfFlat, Bool.and_eq_true, decide_eq_true_eq] at h
      simp only [specLeafTrails]
      exact specTrailsProps_nodup ps h.1.1 h.2

/-- Property-list part of `specTrails_nodup`. -/
theorem specTrailsProps_nodup (ps : List (String × JSDef))
    (hk : (ps.map Prod.fst).Nodup) (hw : wfFlatProps ps = true) :
    (specLeafTrailsProps ps).Nodup := by
  match ps with
  | [] => simp [specLeafTrailsProps]
  | (key, d) :: rest =>
    rw [List.map_cons, List.nodup_cons] at hk
    have hdisj : ∀ tl : List String, key :: tl ∉ specLeafTrailsProps rest := by
      intro tl hmem
      obtain ⟨k, tl2, heq, hkmem⟩ := specTrailsProps_head rest _ hmem
      cases heq
      exact hk.1 hkmem
    cases d with
    | bool b =>
      simp only [wfFlatProps, Bool.true_and] at hw
      have hrest := specTrailsProps_nodup rest hk.2 hw
      simpa [specLeafTrailsProps] using hrest
    | sch prop =>
      simp only [wfFlatProps, Bool.and_eq_true] at hw
      have hrest := specTrailsProps_nodup rest hk.2 hw.2
      by_cases hobj : prop.isObjectWithProps
      · simp only [specLeafTrailsProps, hobj, if_true]
        rw [List.nodup_append]
        refine ⟨?_, hrest, ?_⟩
        · have hin : wfFlat prop = true := by simpa [hobj] using hw.1
          exact (specTrails_nodup prop hin).map (fun a b hab => by injection hab)
        · intro tr htr
          rw [List.mem_map] at htr
          obtain ⟨tl, _, htl⟩ := htr
          cases htl
          exact hdisj tl
      · simp only [specLeafTrailsProps, hobj, Bool.false_eq_true, if_false,
          List.singleton_append, List.nodup_cons]
        exact ⟨hdisj [], hrest⟩
end

/-! ### Injectivity of the dot-joined paths -/

/-- Character-level dot-joining of path segments. -/
def dotJoin : List (List Char) → List Char
  | [] => []
  | [x] => x
  | x :: xs => x ++ '.' :: dotJoin xs

/-- Splicing a dotted segment into `dotJoin`. -/
theorem dotJoin_glue (a b : List Char) (rest : List (List Char)) :
    dotJoin ((a ++ '.' :: b) :: rest) = a ++ '.' :: dotJoin (b :: rest) := by
  cases rest with
  | nil => simp [dotJoin]
  | cons r rs => simp [dotJoin, List.append_assoc]

/-- Dot-free prefixes of a dotted concatenation are determined. -/
theorem dotfree_cons_inj : ∀ (x y a b : List Char), '.' ∉ x → '.' ∉ y →
    x ++ '.' :: a = y ++ '.' :: b → x = y ∧ a = b
  | [], [], _, _, _, _, h => by simpa using h
  | [], c :: y2, _, _, _, hy, h => by
      simp only [List.nil_append, List.cons_append, List.cons.injEq] at h
      exact absurd (List.mem_cons.mpr (Or.inl h.1)) hy
  | c :: x2, [], _, _, hx, _, h => by
      simp only [List.nil_append, List.cons_append, List.cons.injEq] at h
      exact absurd (List.mem_cons.mpr (Or.inl h.1.symm)) hx
  | c :: x2, cy :: y2, a, b, hx, hy, h => by
      simp only [List.cons_append, List.cons.injEq] at h
      obtain ⟨h1, h2⟩ := h
      have htail := dotfree_cons_inj x2 y2 a b
        (fun hm => hx (List.mem_cons_of_mem _ hm))
        (fun hm => hy (List.mem_cons_of_mem _ hm)) h2
      exact ⟨by rw [h1, htail.1], htail.2⟩

/-- `dotJoin` is injective on nonempty lists of dot-free segments. -/
theorem dotJoin_inj : ∀ (xs ys : List (List Char)), (∀ x ∈ xs, '.' ∉ x) →
    (∀ y ∈ ys, '.' ∉ y) → xs ≠ [] → ys ≠ [] → dotJoin xs = dotJoin ys → xs = ys
  | x :: xt, y :: yt, hx, hy, _, _, h => by
      cases xt with
      | nil =>
        cases yt with
        | nil =>
          simp only [dotJoin] at h
          rw [h]
        | cons y2 yt2 =>
          exfalso
          simp only [dotJoin] at h
          apply hx x (by simp)
          rw [h]
          exact List.mem_append.mpr (Or.inr (by simp))
      | cons x2 xt2 =>
        cases yt with
        | nil =>
          exfalso
          simp only [dotJoin] at h
          apply hy y (by simp)
          rw [← h]
          exact List.mem_append.mpr (Or.inr (by simp))
        | cons y2 yt2 =>
          simp only [dotJoin] at h
          obtain ⟨h1, h2⟩ :=
            dotfree_cons_inj x y _ _ (hx x (by simp)) (hy y (by simp)) h
          have hrec := dotJoin_inj (x2 :: xt2) (y2 :: yt2)
            (fun z hz => hx z (List.mem_cons_of_mem _ hz))
            (fun z hz => hy z (List.mem_cons_of_mem _ hz))
            (by simp) (by simp) h2
          rw [h1, hrec]

/-- Underlying characters of a joined path, for a nonempty parent path. -/
theorem joinAll_data : ∀ (tr : List String) (pp : String), pp ≠ "" →
    (joinAll pp tr).data = dotJoin (pp.data :: tr.map String.data)
  | [], pp, _ => by simp [joinAll, dotJoin]
  | k :: tr, pp, hpp => by
      have hne : joinPath pp k ≠ "" := by
        simp only [joinPath, hpp, if_false]
        intro hcon
        have := congrArg String.data hcon
        simp [String.data_append] at this
      have ih := joinAll_data tr (joinPath pp k) hne
      simp only [joinAll, List.map_cons]
      rw [ih]
      have hdata : (joinPath pp k).data = pp.data ++ '.' :: k.data := by
        simp [joinPath, hpp, String.data_append]
      rw [hdata, dotJoin_glue]
      rfl

/-- Paths of root-level flattening: the joined trail over the empty parent
path, in characters. -/
theorem joinAll_root_data (k : String) (tr : List String) (hk : k ≠ "") :
    (joinAll "" (k :: tr)).data = dotJoin ((k :: tr).map String.data) := by
  have : joinPath "" k = k := by simp [joinPath]
  simp only [joinAll, this, List.map_cons]
  cases tr with
  | nil => simp [joinAll, dotJoin]
  | cons k2 tr2 => exact joinAll_data (k2 :: tr2) k hk

/-- Leaf trails of a schema are nonempty. -/
theorem specTrails_head (s : JSchema) :
    ∀ tr ∈ specLeafTrails s, ∃ k tl, tr = k :: tl := by
  cases s with
  | mk ty ti de df en pa f7 f8 f9 f10 f11 f12 f13 f14 f15 f16 props ap req dp c1 c2 c3 c4 =>
    cases props with
    | none => simp [specLeafTrails]
    | some ps =>
      simp only [specLeafTrails]
      intro tr htr
      obtain ⟨k, tl, heq, _⟩ := specTrailsProps_head ps tr htr
      exact ⟨k, tl, heq⟩

mutual
/-- Under `wfFlat`, every segment of every leaf trail is a nonempty, dot-free
key. -/
theorem specTrails_segs (s : JSchema) (h : wfFlat s = true) :
    ∀ tr ∈ specLeafTrails s, ∀ k ∈ tr, k ≠ "" ∧ '.' ∉ k.data := by
  cases s with
  | mk ty ti de df en pa f7 f8 f9 f10 f11 f12 f13 f14 f15 f16 props ap req dp c1 c2 c3 c4 =>
    cases props with
    | none => simp [specLeafTrails]
    | some ps =>
      simp only [wfFlat, Bool.and_eq_true, decide_eq_true_eq] at h
      have hka : ∀ k ∈ ps.map Prod.fst, k ≠ "" ∧ '.' ∉ k.data := by
        intro k hkm
        have := List.all_eq_true.mp h.1.2 k hkm
        simpa [Bool.and_eq_true, decide_eq_true_eq] using this
      simp only [specLeafTrails]
      exact specTrailsProps_segs ps hka h.2

/-- Property-list part of `specTrails_segs`. -/
theorem specTrailsProps_segs (ps : List (String × JSDef))
    (hka : ∀ k ∈ ps.map Prod.fst, k ≠ "" ∧ '.' ∉ k.data)
    (hw : wfFlatProps ps = true) :
    ∀ tr ∈ specLeafTrailsProps ps, ∀ k ∈ tr, k ≠ "" ∧ '.' ∉ k.data := by
  match ps with
  | [] => simp [specLeafTrailsProps]
  | (key, d) :: rest =>
    have hkey : key ≠ "" ∧ '.' ∉ key.data := hka key (by simp)
    have hkrest : ∀ k ∈ rest.map Prod.fst, k ≠ "" ∧ '.' ∉ k.data :=
      fun k hk => hka k (by simp [hk])
    intro tr htr
    cases d with
    | bool b =>
      simp only [wfFlatProps, Bool.true_and] at hw
      simp only [specLeafTrailsProps, List.nil_append] at htr
      exact specTrailsProps_segs rest hkrest hw tr htr
    | sch prop =>
      simp only [wfFlatProps, Bool.and_eq_true] at hw
      by_cases hobj : prop.isObjectWithProps
      · simp only [specLeafTrailsProps, hobj, if_true, List.mem_append,
          List.mem_map] at htr
        cases htr with
        | inl h1 =>
          obtain ⟨tl, htl, heq⟩ := h1
          have hin : wfFlat prop = true := by simpa [hobj] using hw.1
          intro k hk
          rw [← heq] at hk
          rw [List.mem_cons] at hk
          cases hk with
          | inl hkk => exact hkk ▸ hkey
          | inr hkk => exact specTrails_segs prop hin tl htl k hkk
        | inr h2 => exact specTrailsProps_segs rest hkrest hw.2 tr h2
      · simp only [specLeafTrailsProps, hobj, Bool.false_eq_true, if_false,
          List.singleton_append, List.mem_cons] at htr
        cases htr with
        | inl h1 =>
          intro k hk
          rw [h1, List.mem_singleton] at hk
          exact hk ▸ hkey
        | inr h2 => exact specTrailsProps_segs rest hkrest hw.2 tr h2
end

/-- Root-level flattening of a well-formed schema yields pairwise distinct
paths. -/
theorem flatten_paths_nodup (s : JSchema) (pr : List String)
    (pt : Option String) (h : wfFlat s = true) :
    ((flattenSchema s "" pr pt).map FlatField.path).Nodup := by
  rw [flatten_paths_eq]
  apply List.Nodup.map_on ?_ (specTrails_nodup s h)
  intro x hx y hy hxy
  obtain ⟨kx, tx, hxe⟩ := specTrails_head s x hx
  obtain ⟨ky, ty, hye⟩ := specTrails_head s y hy
  subst hxe hye
  have hsx := specTrails_segs s h _ hx
  have hsy := specTrails_segs s h _ hy
  have hdx := joinAll_root_data kx tx (hsx kx (by simp)).1
  have hdy := joinAll_root_data ky ty (hsy ky (by simp)).1
  have hdata : dotJoin ((kx :: tx).map String.data) =
      dotJoin ((ky :: ty).map String.data) := by
    rw [← hdx, ← hdy, hxy]
  have hmaps := dotJoin_inj _ _
    (by
      intro z hz
      rw [List.mem_map] at hz
      obtain ⟨w, hw, hwz⟩ := hz
      exact hwz ▸ (hsx w hw).2)
    (by
      intro z hz
      rw [List.mem_map] at hz
      obtain ⟨w, hw, hwz⟩ := hz
      exact hwz ▸ (hsy w hw).2)
    (by simp) (by simp) hdata
  exact List.map_injective_iff.mpr (fun a b hab => String.ext hab) hmaps

/-! ### Concrete schema builders for witnesses and counterexamples -/

/-- A bare string-typed leaf schema. -/
def strLeaf : JSchema :=
  .mk (some "string") none none none none none none none none none none none
     none none none none none none none none none none none none

/-- An object schema with the given properties and no other keywords. -/
def mkObjProps (props : List (String × JSDef)) : JSchema :=
  .mk (some "object") none none none none none none none none none none none
     none none none none (some props) none none none none none none none

/-- Two distinct leaves whose dot-joined paths coincide: a nested `a.b` and a
single property literally named `"a.b"`. -/
def sDup : JSchema :=
  mkObjProps [("a", .sch (mkObjProps [("b", .sch strLeaf)])), ("a.b", .sch strLeaf)]

/-- A well-formed two-level schema used as a witness input. -/
def sNested : JSchema :=
  mkObjProps [("docker", .sch (mkObjProps [("context", .sch strLeaf)])),
    ("image", .sch strLeaf)]

/-- C6 counterexample: on a schema whose top level declares the properties
`"a"` (an object with a leaf `"b"`) and `"a.b"` (a leaf), `flatten` returns
the path `"a.b"` twice, so the returned paths are not unique within one
flattening call, contradicting the claim as stated. -/
theorem C6_counterexample :
    (flattenSchema sDup "" [] none).map FlatField.path = ["a.b", "a.b"] ∧
    ¬ (((flattenSchema sDup "" [] none).map FlatField.path).Nodup) := by
  have h : (flattenSchema sDup "" [] none).map FlatField.path = ["a.b", "a.b"] := by
    simp [sDup, mkObjProps, strLeaf, flattenSchema, flattenProps,
      JSchema.isObjectWithProps, JSchema.type, JSchema.properties, JSchema.title,
      joinPath, strOr]
  refine ⟨h, ?_⟩
  rw [h]
  decide

/-- C6 (amended): for a schema tree whose property keys are pairwise distinct,
nonempty, and dot-free at every level (`wfFlat`), `flatten` returns exactly
one entry per leaf property, each path is the dot-concatenation of the
ancestor property keys ending in the leaf's own key, and all returned paths
are distinct. -/
theorem C6_flatten_unique (s : JSchema) (h : wfFlat s = true) :
    (flattenSchema s "" [] none).length = (specLeafTrails s).length ∧
    (flattenSchema s "" [] none).map FlatField.path =
      (specLeafTrails s).map (joinAll "") ∧
    ((flattenSchema s "" [] none).map FlatField.path).Nodup := by
  refine ⟨?_, flatten_paths_eq s "" [] none, flatten_paths_nodup s [] none h⟩
  have := congrArg List.length (flatten_paths_eq s "" [] none)
  simpa using this

/-- C6 witness: the amended theorem applied to the concrete two-level schema
`sNested`. -/
theorem C6_witness :
    wfFlat sNested = true ∧
    (flattenSchema sNested "" [] none).length = (specLeafTrails sNested).length ∧
    ((flattenSchema sNested "" [] none).map FlatField.path).Nodup := by
  have hwf : wfFlat sNested = true := by
    simp only [sNested, mkObjProps, strLeaf, wfFlat, wfFlatProps,
      JSchema.isObjectWithProps, JSchema.type, JSchema.properties]
    decide
  exact ⟨hwf, (C6_flatten_unique sNested hwf).1, (C6_flatten_unique sNested hwf).2.2⟩

/-- Each leaf entry of a property list yields a `FlatField` whose `required`
flag is the disjunction tested by the source code. -/
theorem flattenProps_leaf_mem (ps : List (String × JSDef)) (req : List String)
    (pp : String) (pr : List String) (pt : Option String) (key : String)
    (p : JSchema) (hmem : (key, JSDef.sch p) ∈ ps)
    (hleaf : p.isObjectWithProps = false) :
    ∃ f ∈ flattenProps ps req pp pr pt, f.path = joinPath pp key ∧
      f.required = (req.contains key || pr.contains (joinPath pp key)) := by
  induction ps with
  | nil => simp at hmem
  | cons hd rest ih =>
    obtain ⟨k0, d0⟩ := hd
    rw [List.mem_cons] at hmem
    cases hmem with
    | inl he =>
      rw [Prod.mk.injEq] at he
      obtain ⟨he1, he2⟩ := he
      subst he1
      subst he2
      refine ⟨{ path := joinPath pp key
                displayName := strOr p.title (formatFieldName key)
                type := strOr p.type "string"
                required := req.contains key || pr.contains (joinPath pp key)
                dflt := p.dflt
                description := p.description
                parentPath := if pp = "" then none else some pp
                parentTitle := pt }, ?_, rfl, rfl⟩
      simp [flattenProps, hleaf]
    | inr hmem2 =>
      obtain ⟨f, hf, hfp, hfr⟩ := ih hmem2
      refine ⟨f, ?_, hfp, hfr⟩
      cases d0 with
      | bool b => simpa [flattenProps] using hf
      | sch q =>
        simp only [flattenProps]
        exact List.mem_append_right _ hf

/-- An object schema with properties and a `required` array. -/
def mkObjPropsReq (props : List (String × JSDef)) (req : List String) : JSchema :=
  .mk (some "object") none none none none none none none none none none none
     none none none none (some props) none (some req) none none none none none

/-- C7: for every leaf property of a schema, `flatten` emits a field at the
dot-joined path whose `required` flag is true exactly when the key is listed
in the immediate schema's `required` array or the full path is contained in
the `parentRequired` list passed down from the enclosing object. -/
theorem C7_flatten_required (s : JSchema) (pp : String) (pr : List String)
    (pt : Option String) (ps : List (String × JSDef)) (key : String)
    (p : JSchema) (hprops : s.properties = some ps)
    (hmem : (key, JSDef.sch p) ∈ ps) (hleaf : p.isObjectWithProps = false) :
    ∃ f ∈ flattenSchema s pp pr pt, f.path = joinPath pp key ∧
      (f.required = true ↔
        (key ∈ s.required.getD [] ∨ joinPath pp key ∈ pr)) := by
  cases s with
  | mk ty ti de df en pa f7 f8 f9 f10 f11 f12 f13 f14 f15 f16 props ap req dp c1 c2 c3 c4 =>
    simp only [JSchema.properties] at hprops
    subst hprops
    simp only [flattenSchema, JSchema.required]
    obtain ⟨f, hf, hp, hr⟩ :=
      flattenProps_leaf_mem ps (req.getD []) pp pr pt key p hmem hleaf
    refine ⟨f, hf, hp, ?_⟩
    rw [hr]
    simp [List.contains, List.elem_iff]

/-- C7 witness: a one-property schema whose single key is required. -/
theorem C7_witness :
    ∃ f ∈ flattenSchema (mkObjPropsReq [("port", .sch strLeaf)] ["port"]) "" [] none,
      f.path = joinPath "" "port" ∧
      (f.required = true ↔
        ("port" ∈ (mkObjPropsReq [("port", .sch strLeaf)] ["port"]).required.getD [] ∨
          joinPath "" "port" ∈ ([] : List String))) :=
  C7_flatten_required (mkObjPropsReq [("port", .sch strLeaf)] ["port"]) "" [] none
    [("port", .sch strLeaf)] "port" strLeaf rfl (by simp) rfl

/-! ## Schema Transformer (`convertJsonSchemaProperty` and friends)

The TypeScript functions build loosely typed (`any`) objects by sequential
conditional assignment of distinct keys; that is embedded as concatenation of
zero-or-one-entry segments, with `jSet` for the later in-place overwrites done
by `addUIEnhancements`. -/

/-- `if (schema.x) converted.x = schema.x` for a string attribute. -/
def strEntry (k : String) (o : Option String) : List (String × Json) :=
  match o with
  | some s => if s = "" then [] else [(k, Json.str s)]
  | none => []

/-- `if (schema.x !== undefined) converted.x = schema.x` for a carried value. -/
def optEntry (k : String) (o : Option Json) : List (String × Json) :=
  match o with
  | some v => [(k, v)]
  | none => []

/-- `if (schema.x)` for a numeric attribute (`0` is falsy in JavaScript). -/
def natEntryTruthy (k : String) (o : Option Nat) : List (String × Json) :=
  match o with
  | some n => if n = 0 then [] else [(k, Json.num n)]
  | none => []

/-- `if (schema.x !== undefined)` for a numeric attribute. -/
def natEntry (k : String) (o : Option Nat) : List (String × Json) :=
  match o with
  | some n => [(k, Json.num n)]
  | none => []

/-- `if (schema.x !== undefined)` for an integer attribute. -/
def intEntry (k : String) (o : Option Int) : List (String × Json) :=
  match o with
  | some n => [(k, Json.num n)]
  | none => []

/-- First group of `addUIEnhancements`: boolean fields get a radio widget. -/
def uiBoolStep (conv0 : List (String × Json)) (ty : Option String) :
    List (String × Json) :=
  if ty = some "boolean" then jSet conv0 "ui:widget" (.str "radio") else conv0

/-- Format-keyed help text and widget hints for string fields. -/
def uiFormatChain (c1 : List (String × Json)) (fo : Option String) :
    List (String × Json) :=
  if fo = some "email" then
    jSet c1 "ui:help" (.str "Enter a valid email address")
  else if fo = some "uri" ∨ fo = some "hostname" then
    jSet c1 "ui:help" (.str "Enter a valid URL")
  else if fo = some "date" then jSet c1 "ui:widget" (.str "date")
  else if fo = some "date-time" then jSet c1 "ui:widget" (.str "datetime")
  else c1

/-- `if (schema.maxLength && schema.maxLength > 100)`: long text fields get a
textarea widget. -/
def uiTextareaStep (ca : List (String × Json)) (mxl : Option Nat) :
    List (String × Json) :=
  match mxl with
  | some n => if n ≠ 0 ∧ 100 < n then jSet ca "ui:widget" (.str "textarea") else ca
  | none => ca

/-- Second group of `addUIEnhancements`: string fields get format-derived help
text or widgets, and long text fields a textarea. -/
def uiStringStep (c1 : List (String × Json)) (ty fo : Option String)
    (mxl : Option Nat) : List (String × Json) :=
  if ty = some "string" then uiTextareaStep (uiFormatChain c1 fo) mxl else c1

/-- Third group of `addUIEnhancements`: arrays get reorder/add/remove flags. -/
def uiArrayStep (c2 : List (String × Json)) (ty : Option String) :
    List (String × Json) :=
  if ty = some "array" then
    jSet c2 "ui:options"
      (.obj [("orderable", .bool true), ("addable", .bool true),
        ("removable", .bool true)])
  else c2

/-- `addUIEnhancements(converted, schema)`: widget and help-text hints keyed
on the source schema's `type`, `format` and `maxLength`, applied in source
order. -/
def addUIEnhancements (conv0 : List (String × Json)) (ty : Option String)
    (fo : Option String) (mxl : Option Nat) : List (String × Json) :=
  uiArrayStep (uiStringStep (uiBoolStep conv0 ty) ty fo mxl) ty

mutual
/-- The `Object.entries(schema.properties)` loop of
`convertJsonSchemaProperties`: boolean schema definitions are skipped, each
schema is converted with its key. -/
def convertPropsList : List (String × JSDef) → List (String × Json)
  | [] => []
  | (key, d) :: rest =>
    match d with
    | .bool _ => convertPropsList rest
    | .sch p => (key, convertJsonSchemaProperty key p) :: convertPropsList rest

/-- Converted value of the `items` keyword (single schema or tuple form). -/
def convertItemsValue : Option JItems → Option Json
  | some (.single d) => some (convertJsonSchemaDefinition d)
  | some (.tuple ds) => some (Json.arr (convertDefList ds))
  | none => none

/-- Converted value of the `properties` keyword. -/
def convertPropsValue : Option (List (String × JSDef)) → Option Json
  | some ps => some (Json.obj (convertPropsList ps))
  | none => none

/-- Converted value of the `additionalProperties` keyword. -/
def convertAddPropsValue : Option JSDef → Option Json
  | some d => some (convertAddProps d)
  | none => none

/-- Converted value of a `then`/`else` body. -/
def convertCondValue : Option JSDef → Option Json
  | some d => some (convertSchemaObjectDef d)
  | none => none

/-- Converted value of an `allOf` array. -/
def convertAllOfValue : Option (List JSDef) → Option Json
  | some l => some (Json.arr (convertAllOfList l))
  | none => none

/-- `convertJsonSchemaProperty(_key, schema)`.  The key parameter is unused by
the source (it is named `_key` there). -/
def convertJsonSchemaProperty : String → JSchema → Json
  | _key, .mk ty ti de df en pa mnl mxl fo mi ma mo it mni mxi ui props ap req _dp _ifc _thc _elc _ao =>
    Json.obj (addUIEnhancements
      (optEntry "type" (ty.map Json.str) ++
       strEntry "title" ti ++
       strEntry "description" de ++
       optEntry "default" df ++
       optEntry "enum" (en.map Json.arr) ++
       (if ty = some "string" then
          strEntry "pattern" pa ++
          natEntryTruthy "minLength" mnl ++
          natEntryTruthy "maxLength" mxl ++
          strEntry "format" fo
        else if ty = some "number" ∨ ty = some "integer" then
          intEntry "minimum" mi ++
          intEntry "maximum" ma ++
          intEntry "multipleOf" mo
        else if ty = some "array" then
          optEntry "items" (convertItemsValue it) ++
          natEntry "minItems" mni ++
          natEntry "maxItems" mxi ++
          optEntry "uniqueItems" (ui.map Json.bool)
        else if ty = some "object" then
          optEntry "properties" (convertPropsValue props) ++
          optEntry "additionalProperties" (convertAddPropsValue ap) ++
          optEntry "required" (req.map (fun r => Json.arr (r.map Json.str)))
        else []))
      ty fo mxl)

/-- `convertJsonSchemaDefinition(def)`: booleans pass through, schemas are
converted with an empty key. -/
def convertJsonSchemaDefinition : JSDef → Json
  | .bool b => .bool b
  | .sch s => convertJsonSchemaProperty "" s

/-- Conversion of `additionalProperties` (boolean passthrough, otherwise the
definition conversion). -/
def convertAddProps : JSDef → Json
  | .bool b => .bool b
  | .sch s => convertJsonSchemaProperty "" s

/-- Tuple-form `items`: convert each element in order. -/
def convertDefList : List JSDef → List Json
  | [] => []
  | d :: rest => convertJsonSchemaDefinition d :: convertDefList rest

/-- `convertSchemaObject(schema)`: properties, required, `if` (verbatim),
converted `then`/`else`, and a same-length converted `allOf`. -/
def convertSchemaObject : JSchema → Json
  | .mk _ty _ti _de _df _en _pa _f7 _f8 _f9 _f10 _f11 _f12 _f13 _f14 _f15 _f16 props _ap req _dp ifc thc elc ao =>
    Json.obj
      (optEntry "properties" (convertPropsValue props) ++
       optEntry "required" (req.map (fun r => Json.arr (r.map Json.str))) ++
       optEntry "if" ifc ++
       optEntry "then" (convertCondValue thc) ++
       optEntry "else" (convertCondValue elc) ++
       optEntry "allOf" (convertAllOfValue ao))

/-- `typeof s === 'boolean' ? s : convertSchemaObject(s)` used for `then`,
`else` and `allOf` elements. -/
def convertSchemaObjectDef : JSDef → Json
  | .bool b => .bool b
  | .sch s => convertSchemaObject s

/-- Element-wise conversion of an `allOf` array. -/
def convertAllOfList : List JSDef → List Json
  | [] => []
  | d :: rest => convertSchemaObjectDef d :: convertAllOfList rest
end

/-- `convertJsonSchemaProperties(schema)`: `{}` when `properties` is absent,
otherwise the converted property map. -/
def convertJsonSchemaProperties (s : JSchema) : Json :=
  match s.properties with
  | none => .obj []
  | some ps => .obj (convertPropsList ps)

/-- The `Object.entries(schema.dependencies)` loop of `convertDependencies`:
array-form entries are copied, boolean schemas are skipped, and a converted
schema dependency without a root `allOf` is wrapped in a one-element `allOf`. -/
def convertDepsList : List (String × JDep) → List (String × Json)
  | [] => []
  | (key, dep) :: rest =>
    (match dep with
     | .propList names => [(key, Json.arr (names.map Json.str))]
     | .boolDep _ => []
     | .schDep d =>
       let cs := convertSchemaObject d
       match cs.get? "allOf" with
       | none => [(key, Json.obj [("allOf", Json.arr [cs])])]
       | some _ => [(key, cs)]) ++ convertDepsList rest

/-- `convertDependencies(schema)`: `undefined` when there is no `dependencies`
keyword or every entry was skipped. -/
def convertDependencies (s : JSchema) : Option Json :=
  match s.deps with
  | none => none
  | some dl =>
    let entries := convertDepsList dl
    if entries.length > 0 then some (Json.obj entries) else none

/-- Lookup skips a prefix none of whose keys match. -/
theorem jLookup_append_right (l1 l2 : List (String × Json)) (k : String)
    (h : ∀ p ∈ l1, p.1 ≠ k) : jLookup (l1 ++ l2) k = jLookup l2 k := by
  induction l1 with
  | nil => simp
  | cons p rest ih =>
    obtain ⟨k0, v0⟩ := p
    have hk0 : k0 ≠ k := h (k0, v0) (by simp)
    simp only [List.cons_append, jLookup, hk0, if_false]
    exact ih (fun q hq => h q (by simp [hq]))

/-- The converted schema object has an `allOf` key exactly when the source
does, and the converted array has the same length. -/
theorem convertSchemaObject_allOf (d : JSchema) :
    (convertSchemaObject d).get? "allOf" =
      match d.allOf with
      | some l => some (Json.arr (convertAllOfList l))
      | none => none := by
  cases d with
  | mk ty ti de df en pa f7 f8 f9 f10 f11 f12 f13 f14 f15 f16 props ap req dp ifc thc elc ao =>
    rcases props with _ | ps <;> rcases req with _ | r <;>
      rcases ifc with _ | j <;> rcases thc with _ | td <;>
      rcases elc with _ | ed <;> rcases ao with _ | al <;>
      simp [convertSchemaObject, JSchema.allOf, Json.get?, jLookup]

/-- The converted `allOf` list has the length of the source list. -/
theorem convertAllOfList_length (l : List JSDef) :
    (convertAllOfList l).length = l.length := by
  induction l with
  | nil => simp [convertAllOfList]
  | cons d rest ih => simp [convertAllOfList, ih]

/-- `jSet` on one key does not disturb lookups of another. -/
theorem jLookup_jSet_ne (l : List (String × Json)) (k k2 : String) (v : Json)
    (h : k2 ≠ k) : jLookup (jSet l k v) k2 = jLookup l k2 := by
  induction l with
  | nil => simp [jSet, jLookup, (Ne.symm h)]
  | cons p rest ih =>
    obtain ⟨k0, v0⟩ := p
    by_cases hk : k0 = k
    · subst hk
      simp only [jSet, if_pos rfl]
      simp [jLookup, Ne.symm h]
    · simp only [jSet, if_neg hk, jLookup]
      by_cases hk2 : k0 = k2
      · simp [hk2]
      · simp [hk2, ih]

/-- The boolean step only writes `ui:widget`. -/
theorem jLookup_uiBoolStep (l : List (String × Json)) (ty : Option String)
    (k : String) (h1 : k ≠ "ui:widget") :
    jLookup (uiBoolStep l ty) k = jLookup l k := by
  unfold uiBoolStep
  split
  · exact jLookup_jSet_ne l "ui:widget" k _ h1
  · rfl

/-- The format chain only writes `ui:help` and `ui:widget`. -/
theorem jLookup_uiFormatChain (l : List (String × Json)) (fo : Option String)
    (k : String) (h1 : k ≠ "ui:widget") (h2 : k ≠ "ui:help") :
    jLookup (uiFormatChain l fo) k = jLookup l k := by
  unfold uiFormatChain
  repeat' split
  all_goals
    first
      | rw [jLookup_jSet_ne _ _ _ _ h1]
      | rw [jLookup_jSet_ne _ _ _ _ h2]
      | rfl

/-- The textarea step only writes `ui:widget`. -/
theorem jLookup_uiTextareaStep (l : List (String × Json)) (mxl : Option Nat)
    (k : String) (h1 : k ≠ "ui:widget") :
    jLookup (uiTextareaStep l mxl) k = jLookup l k := by
  cases mxl with
  | none => rfl
  | some n =>
    simp only [uiTextareaStep]
    split
    · exact jLookup_jSet_ne _ _ _ _ h1
    · rfl

/-- The string step only writes `ui:help` and `ui:widget`. -/
theorem jLookup_uiStringStep (l : List (String × Json)) (ty fo : Option String)
    (mxl : Option Nat) (k : String) (h1 : k ≠ "ui:widget")
    (h2 : k ≠ "ui:help") :
    jLookup (uiStringStep l ty fo mxl) k = jLookup l k := by
  unfold uiStringStep
  split
  · rw [jLookup_uiTextareaStep _ _ _ h1, jLookup_uiFormatChain _ _ _ h1 h2]
  · rfl

/-- The array step only writes `ui:options`. -/
theorem jLookup_uiArrayStep (l : List (String × Json)) (ty : Option String)
    (k : String) (h3 : k ≠ "ui:options") :
    jLookup (uiArrayStep l ty) k = jLookup l k := by
  unfold uiArrayStep
  split
  · exact jLookup_jSet_ne _ _ _ _ h3
  · rfl

/-- `addUIEnhancements` only writes the `ui:*` keys. -/
theorem jLookup_addUI (conv0 : List (String × Json)) (ty fo : Option String)
    (mxl : Option Nat) (k : String) (h1 : k ≠ "ui:widget")
    (h2 : k ≠ "ui:help") (h3 : k ≠ "ui:options") :
    jLookup (addUIEnhancements conv0 ty fo mxl) k = jLookup conv0 k := by
  unfold addUIEnhancements
  rw [jLookup_uiArrayStep _ _ _ h3, jLookup_uiStringStep _ _ _ _ _ h1 h2,
    jLookup_uiBoolStep _ _ _ h1]

/-- A lookup whose key occurs nowhere yields `undefined`. -/
theorem jLookup_eq_none (l : List (String × Json)) (k : String)
    (h : ∀ p ∈ l, p.1 ≠ k) : jLookup l k = none := by
  induction l with
  | nil => simp [jLookup]
  | cons p rest ih =>
    obtain ⟨k0, v0⟩ := p
    have hk0 : k0 ≠ k := h (k0, v0) (by simp)
    simp only [jLookup, hk0, if_false]
    exact ih (fun q hq => h q (by simp [hq]))

/-- Keys contributed by `strEntry`. -/
theorem strEntry_key (k : String) (o : Option String) :
    ∀ p ∈ strEntry k o, p.1 = k := by
  cases o with
  | none => simp [strEntry]
  | some s => by_cases hs : s = "" <;> simp [strEntry, hs]

/-- Keys contributed by `optEntry`. -/
theorem optEntry_key (k : String) (o : Option Json) :
    ∀ p ∈ optEntry k o, p.1 = k := by
  cases o <;> simp [optEntry]

/-- Keys contributed by `natEntryTruthy`. -/
theorem natEntryTruthy_key (k : String) (o : Option Nat) :
    ∀ p ∈ natEntryTruthy k o, p.1 = k := by
  cases o with
  | none => simp [natEntryTruthy]
  | some n => by_cases hn : n = 0 <;> simp [natEntryTruthy, hn]

/-- Keys contributed by `natEntry`. -/
theorem natEntry_key (k : String) (o : Option Nat) :
    ∀ p ∈ natEntry k o, p.1 = k := by
  cases o <;> simp [natEntry]

/-- Keys contributed by `intEntry`. -/
theorem intEntry_key (k : String) (o : Option Int) :
    ∀ p ∈ intEntry k o, p.1 = k := by
  cases o <;> simp [intEntry]



/-- Accessor-form unfolding of `convertJsonSchemaProperty`. -/
theorem convertJsonSchemaProperty_unfold (key : String) (s : JSchema) :
    convertJsonSchemaProperty key s =
      Json.obj (addUIEnhancements
        (optEntry "type" (s.type.map Json.str) ++
         strEntry "title" s.title ++
         strEntry "description" s.description ++
         optEntry "default" s.dflt ++
         optEntry "enum" (s.enum.map Json.arr) ++
         (if s.type = some "string" then
            strEntry "pattern" s.pattern ++
            natEntryTruthy "minLength" s.minLength ++
            natEntryTruthy "maxLength" s.maxLength ++
            strEntry "format" s.format
          else if s.type = some "number" ∨ s.type = some "integer" then
            intEntry "minimum" s.minimum ++
            intEntry "maximum" s.maximum ++
            intEntry "multipleOf" s.multipleOf
          else if s.type = some "array" then
            optEntry "items" (convertItemsValue s.items) ++
            natEntry "minItems" s.minItems ++
            natEntry "maxItems" s.maxItems ++
            optEntry "uniqueItems" (s.uniqueItems.map Json.bool)
          else if s.type = some "object" then
            optEntry "properties" (convertPropsValue s.properties) ++
            optEntry "additionalProperties" (convertAddPropsValue s.addProps) ++
            optEntry "required" (s.required.map (fun r => Json.arr (r.map Json.str)))
          else []))
        s.type s.format s.maxLength) := by
  cases s with
  | mk ty ti de df en pa mnl mxl fo mi ma mo it mni mxi ui props ap req dp ifc thc elc ao =>
    rw [convertJsonSchemaProperty.eq_def]
    rfl

/-- Accessor-form unfolding of `convertSchemaObject`. -/
theorem convertSchemaObject_unfold (s : JSchema) :
    convertSchemaObject s =
      Json.obj
        (optEntry "properties" (convertPropsValue s.properties) ++
         optEntry "required" (s.required.map (fun r => Json.arr (r.map Json.str))) ++
         optEntry "if" s.ifS ++
         optEntry "then" (convertCondValue s.thenS) ++
         optEntry "else" (convertCondValue s.elseS) ++
         optEntry "allOf" (convertAllOfValue s.allOf)) := by
  cases s with
  | mk ty ti de df en pa mnl mxl fo mi ma mo it mni mxi ui props ap req dp ifc thc elc ao =>
    rw [convertSchemaObject.eq_def]
    rfl

/-- C5 (amended): the transformed node's `title` equals the source node's
`title` when a nonempty one is declared; otherwise the output carries no
`title` at all — the property key is never used to derive one (the source
names its key parameter `_key` and ignores it). -/
theorem C5_title (key : String) (s : JSchema) :
    (convertJsonSchemaProperty key s).get? "title" =
      match s.title with
      | some t => if t = "" then none else some (Json.str t)
      | none => none := by
  rw [convertJsonSchemaProperty_unfold, Json.get?]
  rw [jLookup_addUI _ _ _ _ _ (by decide) (by decide) (by decide)]
  simp only [List.append_assoc]
  have hT : ∀ p ∈ optEntry "type" (s.type.map Json.str), p.1 ≠ "title" := by
    intro p hp
    rw [optEntry_key _ _ p hp]
    decide
  rw [jLookup_append_right _ _ _ hT]
  have htail : ∀ p ∈ strEntry "description" s.description ++
      (optEntry "default" s.dflt ++
      (optEntry "enum" (s.enum.map Json.arr) ++
      (if s.type = some "string" then
        strEntry "pattern" s.pattern ++
        (natEntryTruthy "minLength" s.minLength ++
        (natEntryTruthy "maxLength" s.maxLength ++
        strEntry "format" s.format))
      else if s.type = some "number" ∨ s.type = some "integer" then
        intEntry "minimum" s.minimum ++
        (intEntry "maximum" s.maximum ++
        intEntry "multipleOf" s.multipleOf)
      else if s.type = some "array" then
        optEntry "items" (convertItemsValue s.items) ++
        (natEntry "minItems" s.minItems ++
        (natEntry "maxItems" s.maxItems ++
        optEntry "uniqueItems" (s.uniqueItems.map Json.bool)))
      else if s.type = some "object" then
        optEntry "properties" (convertPropsValue s.properties) ++
        (optEntry "additionalProperties" (convertAddPropsValue s.addProps) ++
        optEntry "required" (s.required.map (fun r => Json.arr (r.map Json.str))))
      else []))), p.1 ≠ "title" := by
    intro p hp
    simp only [List.mem_append] at hp
    rcases hp with hp | hp | hp | hp
    · rw [strEntry_key _ _ p hp]; decide
    · rw [optEntry_key _ _ p hp]; decide
    · rw [optEntry_key _ _ p hp]; decide
    · by_cases h1 : s.type = some "string"
      · rw [if_pos h1] at hp
        simp only [List.mem_append] at hp
        rcases hp with h | h | h | h
        · rw [strEntry_key _ _ p h]; decide
        · rw [natEntryTruthy_key _ _ p h]; decide
        · rw [natEntryTruthy_key _ _ p h]; decide
        · rw [strEntry_key _ _ p h]; decide
      · rw [if_neg h1] at hp
        by_cases h2 : s.type = some "number" ∨ s.type = some "integer"
        · rw [if_pos h2] at hp
          simp only [List.mem_append] at hp
          rcases hp with h | h | h
          · rw [intEntry_key _ _ p h]; decide
          · rw [intEntry_key _ _ p h]; decide
          · rw [intEntry_key _ _ p h]; decide
        · rw [if_neg h2] at hp
          by_cases h3 : s.type = some "array"
          · rw [if_pos h3] at hp
            simp only [List.mem_append] at hp
            rcases hp with h | h | h | h
            · rw [optEntry_key _ _ p h]; decide
            · rw [natEntry_key _ _ p h]; decide
            · rw [natEntry_key _ _ p h]; decide
            · rw [optEntry_key _ _ p h]; decide
          · rw [if_neg h3] at hp
            by_cases h4 : s.type = some "object"
            · rw [if_pos h4] at hp
              simp only [List.mem_append] at hp
              rcases hp with h | h | h
              · rw [optEntry_key _ _ p h]; decide
              · rw [optEntry_key _ _ p h]; decide
              · rw [optEntry_key _ _ p h]; decide
            · rw [if_neg h4] at hp
              simp at hp
  cases hti : s.title with
  | none =>
    have h0 : strEntry "title" none = [] := rfl
    rw [h0, List.nil_append]
    exact jLookup_eq_none _ _ htail
  | some t =>
    by_cases ht : t = ""
    · subst ht
      have h0 : strEntry "title" (some "") = [] := rfl
      rw [h0, List.nil_append, jLookup_eq_none _ _ htail]
      simp
    · have h0 : strEntry "title" (some t) = [("title", Json.str t)] := by
        simp [strEntry, ht]
      rw [h0, List.singleton_append]
      simp only [jLookup]
      simp [ht]

/-- An integer-typed leaf schema with no declared title. -/
def intLeaf : JSchema :=
  .mk (some "integer") none none none none none none none none none none none
     none none none none none none none none none none none none

/-- C5 counterexample: for the primitive leaf property key `"my-port"` with
schema `{type: "integer"}` (no declared title), the transformed node carries
no `title` at all; in particular it does not equal the title-cased
hyphen-split derivation `"My Port"` the claim requires. -/
theorem C5_counterexample :
    (convertJsonSchemaProperty "my-port" intLeaf).get? "title" = none ∧
    (convertJsonSchemaProperty "my-port" intLeaf).get? "title" ≠
      some (Json.str (formatTitle "my-port")) ∧
    formatTitle "my-port" = "My Port" := by
  have h : (convertJsonSchemaProperty "my-port" intLeaf).get? "title" = none := by
    rw [convertJsonSchemaProperty_unfold]
    simp [intLeaf, JSchema.type, JSchema.title, JSchema.description, JSchema.dflt,
      JSchema.enum, JSchema.format, JSchema.maxLength, JSchema.minimum,
      JSchema.maximum, JSchema.multipleOf, Json.get?, addUIEnhancements,
      uiBoolStep, uiStringStep, uiArrayStep, optEntry, strEntry, intEntry,
      jLookup]
  refine ⟨h, ?_, by rfl⟩
  rw [h]
  intro hcon
  cases hcon

/-- Each schema-form dependency entry contributes its converted (and, when
needed, `allOf`-wrapped) schema to the converted dependency object. -/
theorem convertDepsList_schDep_mem (dl : List (String × JDep)) (key : String)
    (dep : JSchema) (hmem : (key, JDep.schDep dep) ∈ dl) :
    (key, (match (convertSchemaObject dep).get? "allOf" with
           | none => Json.obj [("allOf", Json.arr [convertSchemaObject dep])]
           | some _ => convertSchemaObject dep)) ∈ convertDepsList dl := by
  induction dl with
  | nil => simp at hmem
  | cons hd rest ih =>
    obtain ⟨k0, d0⟩ := hd
    rw [List.mem_cons] at hmem
    cases hmem with
    | inl he =>
      rw [Prod.mk.injEq] at he
      obtain ⟨he1, he2⟩ := he
      subst he1
      subst he2
      simp only [convertDepsList]
      cases hc : (convertSchemaObject dep).get? "allOf" with
      | none => simp [hc]
      | some v => simp [hc]
    | inr h2 =>
      simp only [convertDepsList]
      exact List.mem_append_right _ (ih h2)

/-- C1: every schema-form `dependencies` entry is converted to an object with
a top-level `allOf`; when the source entry already has an `allOf` the output
array has exactly the source length (no extra wrapper), and when the source
entry is a conditional without `allOf` the output is an `allOf` of exactly
one element, the transformed conditional. -/
theorem C1_dependencies_allOf (s : JSchema) (dl : List (String × JDep))
    (key : String) (dep : JSchema) (hdeps : s.deps = some dl)
    (hmem : (key, JDep.schDep dep) ∈ dl) :
    convertDependencies s = some (Json.obj (convertDepsList dl)) ∧
    ∃ out, (key, out) ∈ convertDepsList dl ∧
      ∃ elems, out.get? "allOf" = some (Json.arr elems) ∧
        (match dep.allOf with
         | some src => elems.length = src.length
         | none => elems = [convertSchemaObject dep]) := by
  have hout := convertDepsList_schDep_mem dl key dep hmem
  have hne : 0 < (convertDepsList dl).length :=
    List.length_pos.mpr (List.ne_nil_of_mem hout)
  constructor
  · simp only [convertDependencies, hdeps]
    rw [if_pos hne]
  · refine ⟨_, hout, ?_⟩
    have hao := convertSchemaObject_allOf dep
    cases hAl : dep.allOf with
    | some src =>
      have hao2 : (convertSchemaObject dep).get? "allOf" =
          some (Json.arr (convertAllOfList src)) := by
        rw [hao, hAl]
      simp only [hao2]
      exact ⟨convertAllOfList src, rfl, by simp [hAl, convertAllOfList_length]⟩
    | none =>
      have hao2 : (convertSchemaObject dep).get? "allOf" = none := by
        rw [hao, hAl]
      simp only [hao2]
      exact ⟨[convertSchemaObject dep], rfl, by simp [hAl]⟩

/-- A single `if`/`then` conditional dependency schema (no `allOf`). -/
def depIfThen : JSchema :=
  .mk none none none none none none none none none none none none
     none none none none none none none none (some (Json.obj []))
     (some (.sch strLeaf)) none none

/-- A schema whose only keyword is a schema-form dependency on `"gate"`. -/
def sWithDep : JSchema :=
  .mk none none none none none none none none none none none none
     none none none none none none none
     (some [("gate", JDep.schDep depIfThen)]) none none none none

/-- C1 witness: the theorem applied to a concrete one-entry dependency map
whose entry is a bare `if`/`then` conditional. -/
theorem C1_witness :
    convertDependencies sWithDep =
      some (Json.obj (convertDepsList [("gate", JDep.schDep depIfThen)])) ∧
    ∃ out, ("gate", out) ∈
        convertDepsList [("gate", JDep.schDep depIfThen)] ∧
      ∃ elems, out.get? "allOf" = some (Json.arr elems) ∧
        (match depIfThen.allOf with
         | some src => elems.length = src.length
         | none => elems = [convertSchemaObject depIfThen]) :=
  C1_dependencies_allOf sWithDep [("gate", JDep.schDep depIfThen)] "gate"
    depIfThen rfl (by simp)

/-! ## Template Synthesizer (`CtdToTemplateConverter`) -/

/-- `ComponentTypeListItem` metadata (from `ModelsComponentType.model.ts`). -/
structure CtdMetadata where
  name : String
  workloadType : String
  createdAt : String
  displayName : Option String
  description : Option String
  tags : Option (List String)
  allowedWorkflows : Option (List String)

/-- `ComponentTypeSpec`; the schema is optional here because the converter
defensively guards every read (`componentTypeSchema && ...`, `ctdSchema?.`). -/
structure ComponentTypeSpec where
  inputParametersSchema : Option JSchema

/-- The `ComponentType` record consumed by the converter. -/
structure ComponentType where
  metadata : CtdMetadata
  spec : ComponentTypeSpec

/-- The converter's configuration (constructor defaults applied). -/
structure CtdConverter where
  defaultOwner : String
  nspace : String

/-- `s.toLowerCase()` (character-wise). -/
def jsToLower (s : String) : String :=
  String.mk (s.data.map Char.toLower)

/-- `s.trim()`: strip leading and trailing whitespace. -/
def jsTrim (s : String) : String :=
  String.mk (((s.data.dropWhile Char.isWhitespace).reverse.dropWhile
    Char.isWhitespace).reverse)

/-- `generateTemplateName`: fixed prefix, namespace, component-type name. -/
def generateTemplateName (conv : CtdConverter) (componentTypeName : String) :
    String :=
  "template-" ++ conv.nspace ++ "-" ++ componentTypeName

/-- `inferTagsFromCtd`: hyphen-split name parts (nonempty), plus the
lower-cased workload type when truthy and not already present. -/
def inferTagsFromCtd (ct : ComponentType) : List String :=
  let tags := (jsSplitChar '-' ct.metadata.name).filter
    (fun part => part.length > 0)
  if ct.metadata.workloadType ≠ "" then
    let workloadType := jsToLower ct.metadata.workloadType
    if tags.contains workloadType then tags else tags ++ [workloadType]
  else tags

/-- The tag list built in `convertCtdToTemplateEntity`: fixed category tags,
inferred tags, upstream tags, filtered for truthiness and nonblank trim. -/
def templateTags (ct : ComponentType) : List String :=
  (["openchoreo", "component-type"] ++ inferTagsFromCtd ct ++
    ct.metadata.tags.getD []).filter
    (fun tag => tag ≠ "" && (jsTrim tag).length > 0)

/-- `${{ parameters.<key> }}` expansion token (braces written as escapes). -/
def mustacheParam (k : String) : Json :=
  Json.str ("$\x7b\x7b parameters." ++ k ++ " \x7d\x7d")

/-- Section 1: the fixed Component Metadata section. -/
def componentMetadataSection (organizationName : String) : Json :=
  Json.obj
    [("title", .str "Component Metadata"),
     ("required", .arr [.str "organization_name", .str "project_name",
       .str "component_name"]),
     ("properties", Json.obj
       [("component_name", Json.obj
         [("title", .str "Component Name"),
          ("type", .str "string"),
          ("description", .str "Unique name for your component"),
          ("ui:field", .str "EntityNamePicker")]),
        ("displayName", Json.obj
         [("title", .str "Display Name"),
          ("type", .str "string"),
          ("description", .str "Human-readable display name")]),
        ("description", Json.obj
         [("title", .str "Description"),
          ("type", .str "string"),
          ("description", .str "Brief description of what this component does")]),
        ("organization_name", Json.obj
         [("title", .str "Organization"),
          ("type", .str "string"),
          ("description", .str "The organization where this component will be created"),
          ("default", .str organizationName),
          ("ui:disabled", .bool true),
          ("ui:help", .str "Organization is determined by the CTD and cannot be changed")]),
        ("project_name", Json.obj
         [("title", .str "Project"),
          ("type", .str "string"),
          ("description", .str "Select the project"),
          ("ui:field", .str "EntityPicker"),
          ("ui:options", Json.obj
            [("catalogFilter", Json.arr [Json.obj [("kind", .str "System")]])])])])]

/-- The guard of Section 2: schema present, `properties` present (truthy) and
nonempty. -/
def hasTypeConfigSection (ct : ComponentType) : Bool :=
  match ct.spec.inputParametersSchema with
  | some sch =>
    match sch.properties with
    | some ps => ps.length > 0
    | none => false
  | none => false

/-- Section 2: the component-type-specific configuration section. -/
def typeConfigSection (ct : ComponentType) (sch : JSchema) : Json :=
  Json.obj
    ([("title", Json.str
        (strOr ct.metadata.displayName (formatTitle ct.metadata.name) ++
          " Configuration")),
      ("required", Json.arr ((sch.required.getD []).map Json.str)),
      ("properties", convertJsonSchemaProperties sch)] ++
     optEntry "dependencies" (convertDependencies sch))

/-- Section 2 as a zero-or-one element list, mirroring the conditional push. -/
def typeConfigSections (ct : ComponentType) : List Json :=
  match ct.spec.inputParametersSchema with
  | some sch =>
    match sch.properties with
    | some ps => if ps.length > 0 then [typeConfigSection ct sch] else []
    | none => []
  | none => []

/-- `componentType.metadata.allowedWorkflows && ....length > 0`. -/
def hasAllowedWorkflows (ct : ComponentType) : Bool :=
  match ct.metadata.allowedWorkflows with
  | some ws => ws.length > 0
  | none => false

/-- The `useBuiltInCI = true` conditional of the CI Setup dependency. -/
def ciTrueBranch (ws : List String) : Json :=
  Json.obj
    [("if", Json.obj
      [("properties", Json.obj
        [("useBuiltInCI", Json.obj [("const", .bool true)])])]),
     ("then", Json.obj
      [("properties", Json.obj
        [("workflow_name", Json.obj
          [("title", .str "Build Workflow"),
           ("type", .str "string"),
           ("description", .str "Select the build workflow to use for this component"),
           ("enum", Json.arr (ws.map Json.str)),
           ("ui:field", .str "BuildWorkflowPicker")]),
         ("workflow_parameters", Json.obj
          [("title", .str "Workflow Parameters"),
           ("type", .str "object"),
           ("ui:field", .str "BuildWorkflowParameters")])]),
       ("required", Json.arr [.str "workflow_name",
         .str "workflow_parameters"])])]

/-- The `useBuiltInCI = false` conditional of the CI Setup dependency. -/
def ciFalseBranch : Json :=
  Json.obj
    [("if", Json.obj
      [("properties", Json.obj
        [("useBuiltInCI", Json.obj [("const", .bool false)])])]),
     ("then", Json.obj
      [("properties", Json.obj
        [("external_ci_note", Json.obj
          [("type", .str "null"),
           ("ui:widget", .str "markdown"),
           ("description", .str "## Configure your CI\n\nThis section contains details for configuring your CI pipeline to notify OpenChoreo for each build.")])])])]

/-- The body of the CI Setup section for a workflow list. -/
def ciSectionLiteral (ws : List String) : Json :=
  Json.obj
    [("title", .str "CI Setup"),
     ("required", .arr [.str "useBuiltInCI"]),
     ("properties", Json.obj
       [("useBuiltInCI", Json.obj
         [("title", .str "Use Built-in CI in OpenChoreo"),
          ("description", .str "OpenChoreo provides built-in CI capabilities for building components. Enable this to use the built-in CI."),
          ("type", .str "boolean"),
          ("ui:widget", .str "radio")])]),
     ("dependencies", Json.obj
       [("useBuiltInCI", Json.obj
         [("allOf", Json.arr [ciTrueBranch ws, ciFalseBranch])])])]

/-- `generateCISetupSection`: `null` without allowed workflows, otherwise the
full CI setup literal. -/
def generateCISetupSection (ct : ComponentType) : Option Json :=
  match ct.metadata.allowedWorkflows with
  | some ws => if ws.length > 0 then some (ciSectionLiteral ws) else none
  | none => none

/-- Section 3 as a zero-or-one element list, mirroring the conditional push. -/
def ciSections (ct : ComponentType) : List Json :=
  match generateCISetupSection ct with
  | some sec => [sec]
  | none => []

/-- Section 4: the Addons section. -/
def generateAddonsSection (organizationName : String) : Json :=
  Json.obj
    [("title", .str "Addons"),
     ("description", .str "Add optional addons to enhance your component functionality"),
     ("properties", Json.obj
       [("addons", Json.obj
         [("title", .str "Component Addons"),
          ("type", .str "array"),
          ("description", .str "Select and configure addons for your component. You can add multiple addons."),
          ("ui:field", .str "AddonsField"),
          ("ui:options", Json.obj
            [("organizationName", .str organizationName)])])])]

/-- `generateParameters`: metadata section, optional type-configuration
section, optional CI section, addons section, in order. -/
def generateParameters (ct : ComponentType) (organizationName : String) :
    List Json :=
  [componentMetadataSection organizationName] ++
  typeConfigSections ct ++
  ciSections ct ++
  [generateAddonsSection organizationName]

/-- JavaScript object-literal construction by sequential assignment (later
duplicate keys overwrite in place), used for the step `input` whose middle is
an object spread. -/
def buildObj (entries : List (String × Json)) : List (String × Json) :=
  entries.foldl (fun acc e => jSet acc e.1 e.2) []

/-- `generateSteps`: one scaffolder step whose input maps the section fields
to expansion tokens and spreads one token per CTD parameter key. -/
def generateSteps (ct : ComponentType) : List Json :=
  let ctdParameterMappings : List (String × Json) :=
    match ct.spec.inputParametersSchema with
    | some sch =>
      match sch.properties with
      | some ps => ps.map (fun p => (p.1, mustacheParam p.1))
      | none => []
    | none => []
  [Json.obj
    [("id", .str "create-component"),
     ("name", .str "Create OpenChoreo Component"),
     ("action", .str "openchoreo:component:create"),
     ("input", Json.obj (buildObj
       ([("orgName", mustacheParam "organization_name"),
         ("projectName", mustacheParam "project_name"),
         ("componentName", mustacheParam "component_name"),
         ("displayName", mustacheParam "displayName"),
         ("description", mustacheParam "description"),
         ("componentType", Json.str ct.metadata.name),
         ("component_type_workload_type", Json.str ct.metadata.workloadType)] ++
        ctdParameterMappings ++
        [("useBuiltInCI", mustacheParam "useBuiltInCI"),
         ("repo_url", mustacheParam "repo_url"),
         ("branch", mustacheParam "branch"),
         ("component_path", mustacheParam "component_path"),
         ("workflow_name", mustacheParam "workflow_name"),
         ("workflow_parameters", mustacheParam "workflow_parameters"),
         ("addons", mustacheParam "addons")])))]]

/-- Backstage `Entity` metadata (the fields this codebase sets). -/
structure EntityMeta where
  name : String
  nspace : Option String
  title : Option String
  description : Option String
  tags : List String
  annotations : List (String × String)
  labels : List (String × String)

/-- A catalog entity: identity metadata plus a kind-specific `spec` rendered
as a JSON value. -/
structure Entity where
  apiVersion : String
  kind : String
  metadata : EntityMeta
  spec : Json

/-- Assignment on a string-valued annotation map (overwrite in place or
append). -/
def annSet (l : List (String × String)) (key value : String) :
    List (String × String) :=
  match l with
  | [] => [(key, value)]
  | (k, w) :: rest =>
      if k = key then (k, value) :: rest else (k, w) :: annSet rest key value

/-- First-match lookup on a string-valued annotation map. -/
def annGet : List (String × String) → String → Option String
  | [], _ => none
  | (k, v) :: rest, key => if k = key then some v else annGet rest key

/-- `CHOREO_ANNOTATIONS.CTD_NAME`. -/
def ctdNameAnn : String := "openchoreo.io/ctd-name"

/-- `CHOREO_ANNOTATIONS.CTD_GENERATED`. -/
def ctdGeneratedAnn : String := "openchoreo.io/ctd-generated"

/-- `CHOREO_ANNOTATIONS.CTD_DISPLAY_NAME`. -/
def ctdDisplayNameAnn : String := "openchoreo.io/ctd-display-name"

/-- `convertCtdToTemplateEntity(componentType, organizationName)`. -/
def convertCtdToTemplateEntity (conv : CtdConverter) (ct : ComponentType)
    (organizationName : String) : Entity :=
  let templateName := generateTemplateName conv ct.metadata.name
  let title := strOr ct.metadata.displayName (formatTitle ct.metadata.name)
  let description := strOr ct.metadata.description
    ("Create a " ++ title ++ " component")
  let baseAnnotations := [(ctdNameAnn, ct.metadata.name),
    (ctdGeneratedAnn, "true")]
  let annotations :=
    match ct.metadata.displayName with
    | some dn => if dn = "" then baseAnnotations
        else annSet baseAnnotations ctdDisplayNameAnn dn
    | none => baseAnnotations
  { apiVersion := "scaffolder.backstage.io/v1beta3"
    kind := "Template"
    metadata :=
      { name := templateName
        nspace := some conv.nspace
        title := some title
        description := some description
        tags := templateTags ct
        annotations := annotations
        labels := [] }
    spec := Json.obj
      [("owner", .str conv.defaultOwner),
       ("type", .str "Component Type"),
       ("parameters", .arr (generateParameters ct organizationName)),
       ("steps", .arr (generateSteps ct))] }

/-- Path lookup through nested JSON objects. -/
def jPath : Json → List String → Option Json
  | j, [] => some j
  | j, k :: rest =>
    match j.get? k with
    | some v => jPath v rest
    | none => none

/-- First element of an optional JSON array. -/
def jIdx0 : Option Json → Option Json
  | some (.arr (a :: _)) => some a
  | _ => none

/-- C2: when the component type declares a nonempty allowed-workflow list,
the CI Setup section's dependency on the boolean gate has a first `allOf`
conditional whose true branch exposes a `workflow_name` enumeration equal to
the allowed-workflow list and requires exactly `workflow_name` and
`workflow_parameters`. -/
theorem C2_ci_section (ct : ComponentType) (ws : List String)
    (hws : ct.metadata.allowedWorkflows = some ws) (hne : ws ≠ []) :
    ∃ sec cond, generateCISetupSection ct = some sec ∧
      jIdx0 (jPath sec ["dependencies", "useBuiltInCI", "allOf"]) = some cond ∧
      jPath cond ["then", "properties", "workflow_name", "enum"] =
        some (Json.arr (ws.map Json.str)) ∧
      jPath cond ["then", "required"] =
        some (Json.arr [Json.str "workflow_name",
          Json.str "workflow_parameters"]) := by
  have hlen : ws.length > 0 := List.length_pos.mpr hne
  refine ⟨ciSectionLiteral ws, ciTrueBranch ws, ?_, ?_, ?_, ?_⟩
  · simp only [generateCISetupSection, hws]
    rw [if_pos hlen]
  · simp [ciSectionLiteral, jPath, jIdx0, Json.get?, jLookup]
  · simp [ciTrueBranch, jPath, Json.get?, jLookup]
  · simp [ciTrueBranch, jPath, Json.get?, jLookup]

/-- A component type with two allowed workflows and no parameter schema. -/
def ctTwoWorkflows : ComponentType :=
  { metadata :=
      { name := "web-service"
        workloadType := "deployment"
        createdAt := "2024-01-01"
        displayName := none
        description := none
        tags := none
        allowedWorkflows := some ["nodejs-build", "docker-build"] }
    spec := { inputParametersSchema := none } }

/-- C2 witness: the theorem applied to a component type allowing
`nodejs-build` and `docker-build`. -/
theorem C2_witness :
    ∃ sec cond, generateCISetupSection ctTwoWorkflows = some sec ∧
      jIdx0 (jPath sec ["dependencies", "useBuiltInCI", "allOf"]) = some cond ∧
      jPath cond ["then", "properties", "workflow_name", "enum"] =
        some (Json.arr (["nodejs-build", "docker-build"].map Json.str)) ∧
      jPath cond ["then", "required"] =
        some (Json.arr [Json.str "workflow_name",
          Json.str "workflow_parameters"]) :=
  C2_ci_section ctTwoWorkflows ["nodejs-build", "docker-build"] rfl (by decide)

/-- The type-configuration section list has one element exactly when the
schema declares at least one property. -/
theorem typeConfigSections_length (ct : ComponentType) :
    (typeConfigSections ct).length =
      if hasTypeConfigSection ct then 1 else 0 := by
  obtain ⟨m, ⟨ips⟩⟩ := ct
  simp only [typeConfigSections, hasTypeConfigSection]
  cases ips with
  | none => rfl
  | some sch =>
    cases hsp : sch.properties with
    | none => simp [hsp]
    | some ps => by_cases hp : ps.length > 0 <;> simp [hsp, hp]

/-- The CI section list has one element exactly when allowed workflows are
declared and nonempty. -/
theorem ciSections_length (ct : ComponentType) :
    (ciSections ct).length = if hasAllowedWorkflows ct then 1 else 0 := by
  obtain ⟨⟨nm, wt, ca, dn, dsc, tg, aw⟩, sp⟩ := ct
  simp only [ciSections, generateCISetupSection, hasAllowedWorkflows]
  cases aw with
  | none => rfl
  | some ws => by_cases hw : ws.length > 0 <;> simp [hw]

/-- C3: the synthesized parameter list always has the two fixed sections
(identity and addons), plus exactly one more when the parameter schema has at
least one property, plus exactly one more when the allowed-workflow list is
nonempty; the two additions are independent. -/
theorem C3_section_count (ct : ComponentType) (org : String) :
    (generateParameters ct org).length =
      2 + (if hasTypeConfigSection ct then 1 else 0) +
        (if hasAllowedWorkflows ct then 1 else 0) := by
  simp only [generateParameters, List.length_append, List.length_singleton,
    typeConfigSections_length, ciSections_length]
  omega

/-- C4 (amended): every tag of the generated template entity is nonempty and
not whitespace-only; duplicates, however, can occur (see the
counterexample). -/
theorem C4_tags_nonblank (conv : CtdConverter) (ct : ComponentType)
    (org : String) (t : String)
    (hmem : t ∈ (convertCtdToTemplateEntity conv ct org).metadata.tags) :
    t ≠ "" ∧ (jsTrim t).length > 0 := by
  have h2 : t ∈ templateTags ct := hmem
  simp only [templateTags, List.mem_filter, Bool.and_eq_true,
    decide_eq_true_eq] at h2
  exact h2.2

/-- Converter configuration with the constructor defaults. -/
def convDefault : CtdConverter := { defaultOwner := "guests", nspace := "openchoreo" }

/-- C4 witness: the amended theorem at a concrete component type and tag. -/
theorem C4_witness :
    ("deployment" ∈
      (convertCtdToTemplateEntity convDefault ctTwoWorkflows "default").metadata.tags) ∧
    ("deployment" ≠ "" ∧ (jsTrim "deployment").length > 0) :=
  ⟨by decide,
   C4_tags_nonblank convDefault ctTwoWorkflows "default" "deployment" (by decide)⟩

/-- A component type whose name repeats the fixed category tag. -/
def ctDupTag : ComponentType :=
  { metadata :=
      { name := "openchoreo"
        workloadType := "deployment"
        createdAt := "2024-01-01"
        displayName := none
        description := none
        tags := none
        allowedWorkflows := none }
    spec := { inputParametersSchema := none } }

/-- C4 counterexample: for the component type named `"openchoreo"`, the
generated tag list contains the token `"openchoreo"` twice — the code filters
blank tags but never de-duplicates against the fixed category tags. -/
theorem C4_counterexample :
    (convertCtdToTemplateEntity convDefault ctDupTag "default").metadata.tags =
      ["openchoreo", "component-type", "openchoreo", "deployment"] ∧
    ¬ ((convertCtdToTemplateEntity convDefault ctDupTag "default").metadata.tags).Nodup := by
  constructor
  · decide
  · decide

/-! ## Synchronization Orchestrator (`OpenChoreoEntityProvider`) -/

/-- `ModelsOrganization`. -/
structure ModelsOrganization where
  name : String
  displayName : Option String
  description : Option String
  nspace : String
  createdAt : String
  status : String

/-- `ModelsProject` (the fields the provider reads). -/
structure ModelsProject where
  name : String
  displayName : Option String
  description : Option String

/-- `ModelsEnvironment`. -/
structure ModelsEnvironment where
  name : String
  displayName : Option String
  description : Option String
  nspace : String
  createdAt : String
  status : String
  dataPlaneRef : String
  dnsPrefix : String
  isProduction : Bool

/-- `ModelsDataPlane` (optional fields defaulted with `|| ''` in the code). -/
structure ModelsDataPlane where
  name : String
  displayName : Option String
  description : Option String
  nspace : Option String
  createdAt : Option String
  status : Option String
  kubernetesClusterName : Option String
  apiServerURL : Option String
  publicVirtualHost : Option String
  organizationVirtualHost : Option String
  observerURL : Option String
  observerUsername : Option String

/-- `ModelsComponent`. -/
structure ModelsComponent where
  name : String
  type : String
  description : Option String
  createdAt : String
  status : String
  repositoryUrl : Option String
  branch : Option String

/-- The `schema` carried by a workload endpoint. -/
structure EndpointSchema where
  content : Option String

/-- `WorkloadEndpoint`. -/
structure WorkloadEndpoint where
  type : String
  port : Int
  schema : Option EndpointSchema

/-- The workload of a complete component (endpoint map in insertion order). -/
structure ModelsWorkload where
  endpoints : Option (List (String × WorkloadEndpoint))

/-- `ModelsCompleteComponent`: the base component fields plus the workload
(TypeScript extends `ModelsComponent`; embedded here by composition). -/
structure ModelsCompleteComponent where
  component : ModelsComponent
  workload : Option ModelsWorkload

/-- The `data` of a `ComponentTypeListResponse`. -/
structure CTDListData where
  items : List CtdMetadata
  totalCount : Int

/-- The OpenChoreo REST client as consumed by one provider run.  Each method
is a fixed (deterministic) response map: exceptions become `Except.error`.  A
run against "identical upstream responses" is a run against the same
`ApiClient` value. -/
structure ApiClient where
  getAllOrganizations : Except String (List ModelsOrganization)
  getAllEnvironments : String → Except String (List ModelsEnvironment)
  getAllDataplanes : String → Except String (List ModelsDataPlane)
  getAllProjects : String → Except String (List ModelsProject)
  getAllComponents : String → String → Except String (List ModelsComponent)
  getComponent : String → String → String → Except String ModelsCompleteComponent
  listCTDs : String → Except String CTDListData
  getCTDWithSchema : String → CtdMetadata → Except String ComponentType

/-- Provider state (the configured default owner). -/
structure Provider where
  defaultOwner : String

/-- `getProviderName()`. -/
def providerName : String := "OpenChoreoEntityProvider"

/-- The location key / managed-by value used throughout one run. -/
def providerKey : String := "provider:OpenChoreoEntityProvider"

/-- The provider's `ctdConverter` (constructed with namespace `openchoreo`). -/
def Provider.ctdConverter (p : Provider) : CtdConverter :=
  { defaultOwner := p.defaultOwner, nspace := "openchoreo" }

/-- A failed scope fetch is treated as zero results for that scope. -/
def okList {α : Type} : Except String (List α) → List α
  | .ok l => l
  | .error _ => []

/-- Render an optional string as JSON (`undefined` becomes `null` here). -/
def optStrJson : Option String → Json
  | some s => .str s
  | none => .null

/-- `translateOrganizationToDomain`. -/
def translateOrganizationToDomain (p : Provider)
    (organization : ModelsOrganization) : Entity :=
  { apiVersion := "backstage.io/v1alpha1"
    kind := "Domain"
    metadata :=
      { name := organization.name
        nspace := none
        title := some (strOr organization.displayName organization.name)
        description := some (strOr organization.description organization.name)
        tags := ["openchoreo", "organization", "domain"]
        annotations :=
          [("backstage.io/managed-by-location", providerKey),
           ("backstage.io/managed-by-origin-location", providerKey),
           ("openchoreo.io/organization", organization.name),
           ("openchoreo.io/namespace", organization.nspace),
           ("openchoreo.io/created-at", organization.createdAt),
           ("openchoreo.io/status", organization.status)]
        labels := [("openchoreo.io/managed", "true")] }
    spec := Json.obj [("owner", .str p.defaultOwner)] }

/-- `translateProjectToEntity`. -/
def translateProjectToEntity (p : Provider) (project : ModelsProject)
    (orgName : String) : Entity :=
  { apiVersion := "backstage.io/v1alpha1"
    kind := "System"
    metadata :=
      { name := project.name
        nspace := none
        title := some (strOr project.displayName project.name)
        description := some (strOr project.description project.name)
        tags := ["openchoreo", "project"]
        annotations :=
          [("backstage.io/managed-by-location", providerKey),
           ("backstage.io/managed-by-origin-location", providerKey),
           ("openchoreo.io/project-id", project.name),
           ("openchoreo.io/organization", orgName)]
        labels := [("openchoreo.io/managed", "true")] }
    spec := Json.obj
      [("owner", .str p.defaultOwner), ("domain", .str orgName)] }

/-- `translateEnvironmentToEntity`. -/
def translateEnvironmentToEntity (environment : ModelsEnvironment)
    (orgName : String) : Entity :=
  { apiVersion := "backstage.io/v1alpha1"
    kind := "Environment"
    metadata :=
      { name := environment.name
        nspace := none
        title := some (strOr environment.displayName environment.name)
        description := some (strOr environment.description
          (environment.name ++ " environment"))
        tags := ["openchoreo", "environment",
          if environment.isProduction then "production" else "non-production"]
        annotations :=
          [("backstage.io/managed-by-location", providerKey),
           ("backstage.io/managed-by-origin-location", providerKey),
           ("openchoreo.io/environment", environment.name),
           ("openchoreo.io/organization", orgName),
           ("openchoreo.io/namespace", environment.nspace),
           ("openchoreo.io/created-at", environment.createdAt),
           ("openchoreo.io/status", environment.status),
           ("openchoreo.io/data-plane-ref", environment.dataPlaneRef),
           ("openchoreo.io/dns-prefix", environment.dnsPrefix),
           ("openchoreo.io/is-production",
             if environment.isProduction then "true" else "false")]
        labels :=
          [("openchoreo.io/managed", "true"),
           ("openchoreo.io/environment-type",
             if environment.isProduction then "production" else "non-production")] }
    spec := Json.obj
      [("type", .str (if environment.isProduction then "production"
          else "non-production")),
       ("owner", .str "guests"),
       ("domain", .str orgName),
       ("isProduction", .bool environment.isProduction),
       ("dataPlaneRef", .str environment.dataPlaneRef),
       ("dnsPrefix", .str environment.dnsPrefix)] }

/-- `translateDataplaneToEntity`. -/
def translateDataplaneToEntity (dataplane : ModelsDataPlane)
    (orgName : String) : Entity :=
  { apiVersion := "backstage.io/v1alpha1"
    kind := "Dataplane"
    metadata :=
      { name := dataplane.name
        nspace := none
        title := some (strOr dataplane.displayName dataplane.name)
        description := some (strOr dataplane.description
          (dataplane.name ++ " dataplane"))
        tags := ["openchoreo", "dataplane", "infrastructure"]
        annotations :=
          [("backstage.io/managed-by-location", providerKey),
           ("backstage.io/managed-by-origin-location", providerKey),
           ("openchoreo.io/organization", orgName),
           ("openchoreo.io/namespace", dataplane.nspace.getD ""),
           ("openchoreo.io/created-at", dataplane.createdAt.getD ""),
           ("openchoreo.io/status", dataplane.status.getD ""),
           ("openchoreo.io/kubernetes-cluster-name",
             dataplane.kubernetesClusterName.getD ""),
           ("openchoreo.io/api-server-url", dataplane.apiServerURL.getD ""),
           ("openchoreo.io/public-virtual-host",
             dataplane.publicVirtualHost.getD ""),
           ("openchoreo.io/organization-virtual-host",
             dataplane.organizationVirtualHost.getD ""),
           ("openchoreo.io/observer-url", dataplane.observerURL.getD ""),
           ("openchoreo.io/observer-username",
             dataplane.observerUsername.getD "")]
        labels :=
          [("openchoreo.io/managed", "true"),
           ("openchoreo.io/dataplane", "true")] }
    spec := Json.obj
      [("type", .str "kubernetes"),
       ("owner", .str "guests"),
       ("domain", .str orgName),
       ("kubernetesClusterName", optStrJson dataplane.kubernetesClusterName),
       ("apiServerURL", optStrJson dataplane.apiServerURL),
       ("publicVirtualHost", optStrJson dataplane.publicVirtualHost),
       ("organizationVirtualHost", optStrJson dataplane.organizationVirtualHost),
       ("observerURL", optStrJson dataplane.observerURL)] }

/-- `translateComponentToEntity`. -/
def translateComponentToEntity (p : Provider) (component : ModelsComponent)
    (orgName projectName : String) (providesApis : Option (List String)) :
    Entity :=
  let backstageComponentType :=
    if component.type = "WebApplication" then "website"
    else jsToLower component.type
  { apiVersion := "backstage.io/v1alpha1"
    kind := "Component"
    metadata :=
      { name := component.name
        nspace := none
        title := some component.name
        description := some (strOr component.description component.name)
        tags := ["openchoreo", "component",
          jsReplaceFirstChar (jsToLower component.type) '/' '-']
        annotations :=
          [("backstage.io/managed-by-location", providerKey),
           ("backstage.io/managed-by-origin-location", providerKey),
           ("openchoreo.io/component", component.name),
           ("openchoreo.io/component-type", component.type),
           ("openchoreo.io/project", projectName),
           ("openchoreo.io/organization", orgName),
           ("openchoreo.io/created-at", component.createdAt),
           ("openchoreo.io/status", component.status)] ++
          (match component.repositoryUrl with
           | some url => if url = "" then []
               else [("backstage.io/source-location", "url:" ++ url)]
           | none => []) ++
          (match component.branch with
           | some b => if b = "" then [] else [("openchoreo.io/branch", b)]
           | none => [])
        labels := [("openchoreo.io/managed", "true")] }
    spec := Json.obj
      ([("type", .str backstageComponentType),
        ("lifecycle", .str (jsToLower component.status)),
        ("owner", .str p.defaultOwner),
        ("system", .str projectName)] ++
       (match providesApis with
        | some l => if l.length > 0 then [("providesApis", Json.arr (l.map Json.str))] else []
        | none => [])) }

/-- `translateServiceComponentToEntity`: derive `providesApis` from the
workload endpoints and reuse the base translation. -/
def translateServiceComponentToEntity (p : Provider)
    (completeComponent : ModelsCompleteComponent)
    (orgName projectName : String) : Entity :=
  let providesApis :=
    match completeComponent.workload with
    | some w =>
      match w.endpoints with
      | some eps => eps.map
          (fun e => completeComponent.component.name ++ "-" ++ e.1)
      | none => []
    | none => []
  translateComponentToEntity p completeComponent.component orgName projectName
    (some providesApis)

/-- `mapWorkloadEndpointTypeToBackstageType`. -/
def mapWorkloadEndpointTypeToBackstageType (workloadType : String) : String :=
  if workloadType = "REST" ∨ workloadType = "HTTP" then "openapi"
  else if workloadType = "GraphQL" then "graphql"
  else if workloadType = "gRPC" then "grpc"
  else if workloadType = "Websocket" then "asyncapi"
  else if workloadType = "TCP" ∨ workloadType = "UDP" then "openapi"
  else "openapi"

/-- `createApiDefinitionFromWorkloadEndpoint`. -/
def createApiDefinitionFromWorkloadEndpoint (endpoint : WorkloadEndpoint) :
    String :=
  match endpoint.schema with
  | some sch =>
    match sch.content with
    | some content => if content = "" then "No schema available" else content
    | none => "No schema available"
  | none => "No schema available"

/-- `createApiEntitiesFromWorkload`. -/
def createApiEntitiesFromWorkload (p : Provider)
    (completeComponent : ModelsCompleteComponent)
    (orgName projectName : String) : List Entity :=
  match completeComponent.workload with
  | none => []
  | some w =>
    match w.endpoints with
    | none => []
    | some eps =>
      eps.map (fun ep =>
        { apiVersion := "backstage.io/v1alpha1"
          kind := "API"
          metadata :=
            { name := completeComponent.component.name ++ "-" ++ ep.1
              nspace := none
              title := some (completeComponent.component.name ++ " " ++
                ep.1 ++ " API")
              description := some (ep.2.type ++ " endpoint for " ++
                completeComponent.component.name ++ " service on port " ++
                toString ep.2.port)
              tags := ["openchoreo", "api", jsToLower ep.2.type]
              annotations :=
                [("backstage.io/managed-by-location", providerKey),
                 ("backstage.io/managed-by-origin-location", providerKey),
                 ("openchoreo.io/component", completeComponent.component.name),
                 ("openchoreo.io/endpoint-name", ep.1),
                 ("openchoreo.io/endpoint-type", ep.2.type),
                 ("openchoreo.io/endpoint-port", toString ep.2.port),
                 ("openchoreo.io/project", projectName),
                 ("openchoreo.io/organization", orgName)]
              labels := [("openchoreo.io/managed", "true")] }
          spec := Json.obj
            [("type", .str (mapWorkloadEndpointTypeToBackstageType ep.2.type)),
             ("lifecycle", .str "production"),
             ("owner", .str p.defaultOwner),
             ("system", .str projectName),
             ("definition",
               .str (createApiDefinitionFromWorkloadEndpoint ep.2))] })

/-- The managed-by annotations added to each generated template entity. -/
def addManagedToTemplate (e : Entity) : Entity :=
  let ann1 := annSet e.metadata.annotations
    "backstage.io/managed-by-location" providerKey
  let ann2 := annSet ann1 "backstage.io/managed-by-origin-location" providerKey
  { e with metadata := { e.metadata with annotations := ann2 } }

/-- Per-organization environment entities (empty on fetch failure). -/
def envEntities (c : ApiClient) (org : ModelsOrganization) : List Entity :=
  (okList (c.getAllEnvironments org.name)).map
    (fun environment => translateEnvironmentToEntity environment org.name)

/-- Per-organization dataplane entities (empty on fetch failure). -/
def dpEntities (c : ApiClient) (org : ModelsOrganization) : List Entity :=
  (okList (c.getAllDataplanes org.name)).map
    (fun dataplane => translateDataplaneToEntity dataplane org.name)

/-- The truthiness of `completeComponent.workload?.endpoints`. -/
def workloadHasEndpoints (cc : ModelsCompleteComponent) : Bool :=
  match cc.workload with
  | some w => w.endpoints.isSome
  | none => false

/-- Per-project component (and API) entities: Service components get the
enriched translation when the detail fetch succeeds, the basic one otherwise. -/
def componentEntities (p : Provider) (c : ApiClient)
    (org : ModelsOrganization) (proj : ModelsProject) : List Entity :=
  match c.getAllComponents org.name proj.name with
  | .error _ => []
  | .ok comps =>
    comps.flatMap (fun comp =>
      if comp.type = "Service" then
        match c.getComponent org.name proj.name comp.name with
        | .ok cc =>
          [translateServiceComponentToEntity p cc org.name proj.name] ++
          (if workloadHasEndpoints cc then
            createApiEntitiesFromWorkload p cc org.name proj.name
          else [])
        | .error _ =>
          [translateComponentToEntity p comp org.name proj.name none]
      else [translateComponentToEntity p comp org.name proj.name none])

/-- Per-organization project scope: system entities then their components;
empty when the project list fetch fails. -/
def projectScope (p : Provider) (c : ApiClient) (org : ModelsOrganization) :
    List Entity :=
  match c.getAllProjects org.name with
  | .error _ => []
  | .ok projects =>
    projects.map (fun proj => translateProjectToEntity p proj org.name) ++
    projects.flatMap (fun proj => componentEntities p c org proj)

/-- Per-organization template scope: list CTDs, fetch schemas (a failure
drops only that CTD), convert and annotate. -/
def ctdScope (p : Provider) (c : ApiClient) (org : ModelsOrganization) :
    List Entity :=
  match c.listCTDs org.name with
  | .error _ => []
  | .ok listData =>
    let validCTDs := listData.items.filterMap
      (fun item => (c.getCTDWithSchema org.name item).toOption)
    validCTDs.map (fun ctd =>
      addManagedToTemplate (convertCtdToTemplateEntity p.ctdConverter ctd org.name))

/-- All entities accumulated by one run over a fetched organization list, in
accumulation order. -/
def runEntities (p : Provider) (c : ApiClient)
    (orgs : List ModelsOrganization) : List Entity :=
  orgs.map (translateOrganizationToDomain p) ++
  orgs.flatMap (envEntities c) ++
  orgs.flatMap (dpEntities c) ++
  orgs.flatMap (projectScope p c) ++
  orgs.flatMap (ctdScope p c)

/-- One item of the full-replacement mutation. -/
structure MutationItem where
  entity : Entity
  locationKey : String

/-- One provider run: `none` when the organizations fetch fails (no commit is
attempted), otherwise the full-replacement mutation submitted to the catalog. -/
def run (p : Provider) (c : ApiClient) : Option (List MutationItem) :=
  match c.getAllOrganizations with
  | .error _ => none
  | .ok orgs =>
    some ((runEntities p c orgs).map
      (fun e => { entity := e, locationKey := providerKey }))

/-! ### C8–C10: isolation, idempotence, managed-by marking -/

/-- Setting an annotation makes it readable. -/
theorem annSet_get_self (l : List (String × String)) (k v : String) :
    annGet (annSet l k v) k = some v := by
  induction l with
  | nil => simp [annSet, annGet]
  | cons p rest ih =>
    obtain ⟨k0, w⟩ := p
    by_cases hk : k0 = k
    · subst hk
      simp [annSet, annGet]
    · simp only [annSet, if_neg hk, annGet]
      exact ih

/-- Setting one annotation does not change another. -/
theorem annSet_get_ne (l : List (String × String)) (k v k2 : String)
    (h : k2 ≠ k) : annGet (annSet l k v) k2 = annGet l k2 := by
  induction l with
  | nil => simp [annSet, annGet, Ne.symm h]
  | cons p rest ih =>
    obtain ⟨k0, w⟩ := p
    by_cases hk : k0 = k
    · subst hk
      simp only [annSet, if_pos rfl, annGet]
      rw [if_neg (Ne.symm h), if_neg (Ne.symm h)]
    · simp only [annSet, if_neg hk, annGet]
      by_cases hk2 : k0 = k2
      · rw [if_pos hk2, if_pos hk2]
      · rw [if_neg hk2, if_neg hk2]
        exact ih

/-- An entity carries both managed-by annotations with the provider key. -/
def managedMarked (e : Entity) : Prop :=
  annGet e.metadata.annotations "backstage.io/managed-by-location" =
    some providerKey ∧
  annGet e.metadata.annotations "backstage.io/managed-by-origin-location" =
    some providerKey

/-- Domains are marked. -/
theorem domain_marked (p : Provider) (org : ModelsOrganization) :
    managedMarked (translateOrganizationToDomain p org) := ⟨rfl, rfl⟩

/-- Systems are marked. -/
theorem project_marked (p : Provider) (proj : ModelsProject) (orgName : String) :
    managedMarked (translateProjectToEntity p proj orgName) := ⟨rfl, rfl⟩

/-- Environments are marked. -/
theorem environment_marked (env : ModelsEnvironment) (orgName : String) :
    managedMarked (translateEnvironmentToEntity env orgName) := ⟨rfl, rfl⟩

/-- Dataplanes are marked. -/
theorem dataplane_marked (dp : ModelsDataPlane) (orgName : String) :
    managedMarked (translateDataplaneToEntity dp orgName) := ⟨rfl, rfl⟩

/-- Components are marked. -/
theorem component_marked (p : Provider) (comp : ModelsComponent)
    (orgName projectName : String) (papis : Option (List String)) :
    managedMarked (translateComponentToEntity p comp orgName projectName papis) :=
  ⟨rfl, rfl⟩

/-- Service components are marked. -/
theorem service_component_marked (p : Provider)
    (cc : ModelsCompleteComponent) (orgName projectName : String) :
    managedMarked (translateServiceComponentToEntity p cc orgName projectName) :=
  ⟨rfl, rfl⟩

/-- API entities are marked. -/
theorem api_entities_marked (p : Provider) (cc : ModelsCompleteComponent)
    (orgName projectName : String) :
    ∀ e ∈ createApiEntitiesFromWorkload p cc orgName projectName,
      managedMarked e := by
  intro e he
  obtain ⟨comp, wl⟩ := cc
  unfold createApiEntitiesFromWorkload at he
  cases wl with
  | none => simp at he
  | some w =>
    obtain ⟨eps⟩ := w
    cases eps with
    | none => simp at he
    | some l =>
      simp only [List.mem_map] at he
      obtain ⟨ep, _, heq⟩ := he
      exact heq ▸ ⟨rfl, rfl⟩

/-- Annotated template entities are marked, whatever they carried before. -/
theorem addManaged_marked (e : Entity) :
    managedMarked (addManagedToTemplate e) := by
  constructor
  · show annGet (annSet (annSet e.metadata.annotations
        "backstage.io/managed-by-location" providerKey)
        "backstage.io/managed-by-origin-location" providerKey)
      "backstage.io/managed-by-location" = some providerKey
    rw [annSet_get_ne _ _ _ _ (by decide)]
    exact annSet_get_self _ _ _
  · show annGet (annSet (annSet e.metadata.annotations
        "backstage.io/managed-by-location" providerKey)
        "backstage.io/managed-by-origin-location" providerKey)
      "backstage.io/managed-by-origin-location" = some providerKey
    exact annSet_get_self _ _ _

/-- Every entity of a project's component scope is marked. -/
theorem componentEntities_marked (p : Provider) (c : ApiClient)
    (org : ModelsOrganization) (proj : ModelsProject) :
    ∀ e ∈ componentEntities p c org proj, managedMarked e := by
  intro e he
  unfold componentEntities at he
  cases hgc : c.getAllComponents org.name proj.name with
  | error err => rw [hgc] at he; simp at he
  | ok comps =>
    rw [hgc] at he
    simp only [List.mem_flatMap] at he
    obtain ⟨comp, _, he2⟩ := he
    by_cases hsv : comp.type = "Service"
    · rw [if_pos hsv] at he2
      cases hdet : c.getComponent org.name proj.name comp.name with
      | error err2 =>
        rw [hdet] at he2
        simp only [List.mem_singleton] at he2
        exact he2 ▸ component_marked p comp org.name proj.name none
      | ok cc =>
        rw [hdet] at he2
        rw [List.mem_append] at he2
        cases he2 with
        | inl hl =>
          rw [List.mem_singleton] at hl
          exact hl ▸ service_component_marked p cc org.name proj.name
        | inr hr =>
          by_cases hwe : workloadHasEndpoints cc
          · rw [if_pos hwe] at hr
            exact api_entities_marked p cc org.name proj.name e hr
          · rw [if_neg hwe] at hr
            simp at hr
    · rw [if_neg hsv] at he2
      rw [List.mem_singleton] at he2
      exact he2 ▸ component_marked p comp org.name proj.name none

/-- Every entity accumulated by a run over `orgs` is marked. -/
theorem runEntities_marked (p : Provider) (c : ApiClient)
    (orgs : List ModelsOrganization) :
    ∀ e ∈ runEntities p c orgs, managedMarked e := by
  intro e he
  simp only [runEntities, List.mem_append] at he
  rcases he with (((he | he) | he) | he) | he
  · rw [List.mem_map] at he
    obtain ⟨org, _, heq⟩ := he
    exact heq ▸ domain_marked p org
  · rw [List.mem_flatMap] at he
    obtain ⟨org, _, hin⟩ := he
    simp only [envEntities, List.mem_map] at hin
    obtain ⟨env, _, heq⟩ := hin
    exact heq ▸ environment_marked env org.name
  · rw [List.mem_flatMap] at he
    obtain ⟨org, _, hin⟩ := he
    simp only [dpEntities, List.mem_map] at hin
    obtain ⟨dp, _, heq⟩ := hin
    exact heq ▸ dataplane_marked dp org.name
  · rw [List.mem_flatMap] at he
    obtain ⟨org, _, hin⟩ := he
    unfold projectScope at hin
    cases hpr : c.getAllProjects org.name with
    | error err => rw [hpr] at hin; simp at hin
    | ok projects =>
      rw [hpr] at hin
      rw [List.mem_append] at hin
      cases hin with
      | inl hl =>
        rw [List.mem_map] at hl
        obtain ⟨proj, _, heq⟩ := hl
        exact heq ▸ project_marked p proj org.name
      | inr hr =>
        rw [List.mem_flatMap] at hr
        obtain ⟨proj, _, hin2⟩ := hr
        exact componentEntities_marked p c org proj e hin2
  · rw [List.mem_flatMap] at he
    obtain ⟨org, _, hin⟩ := he
    unfold ctdScope at hin
    cases hct : c.listCTDs org.name with
    | error err => rw [hct] at hin; simp at hin
    | ok listData =>
      rw [hct] at hin
      simp only [List.mem_map] at hin
      obtain ⟨ctd, _, heq⟩ := hin
      exact heq ▸ addManaged_marked _

/-- C8: a failed project-list fetch for one organization yields an empty
project scope for it, while the run still commits the full accumulation:
that organization's domain, environment, dataplane and template entities, and
every other organization's project scope, all appear in the committed set. -/
theorem C8_isolated (p : Provider) (c : ApiClient)
    (orgs : List ModelsOrganization) (org : ModelsOrganization) (err : String)
    (horgs : c.getAllOrganizations = Except.ok orgs)
    (hmem : org ∈ orgs)
    (hfail : c.getAllProjects org.name = Except.error err) :
    run p c = some ((runEntities p c orgs).map
      (fun e => { entity := e, locationKey := providerKey })) ∧
    projectScope p c org = [] ∧
    translateOrganizationToDomain p org ∈ runEntities p c orgs ∧
    (∀ e ∈ envEntities c org, e ∈ runEntities p c orgs) ∧
    (∀ e ∈ dpEntities c org, e ∈ runEntities p c orgs) ∧
    (∀ e ∈ ctdScope p c org, e ∈ runEntities p c orgs) ∧
    (∀ org2 ∈ orgs, ∀ e ∈ projectScope p c org2, e ∈ runEntities p c orgs) := by
  refine ⟨?_, ?_, ?_, ?_, ?_, ?_, ?_⟩
  · unfold run
    rw [horgs]
  · unfold projectScope
    rw [hfail]
  · simp only [runEntities, List.mem_append]
    exact Or.inl (Or.inl (Or.inl (Or.inl (List.mem_map_of_mem _ hmem))))
  · intro e he
    simp only [runEntities, List.mem_append]
    exact Or.inl (Or.inl (Or.inl (Or.inr (List.mem_flatMap.mpr ⟨org, hmem, he⟩))))
  · intro e he
    simp only [runEntities, List.mem_append]
    exact Or.inl (Or.inl (Or.inr (List.mem_flatMap.mpr ⟨org, hmem, he⟩)))
  · intro e he
    simp only [runEntities, List.mem_append]
    exact Or.inr (List.mem_flatMap.mpr ⟨org, hmem, he⟩)
  · intro org2 hmem2 e he
    simp only [runEntities, List.mem_append]
    exact Or.inl (Or.inr (List.mem_flatMap.mpr ⟨org2, hmem2, he⟩))

/-- A concrete organization used to exercise the provider lemmas. -/
def orgAcme : ModelsOrganization :=
  { name := "acme", displayName := none, description := none,
    nspace := "ns-acme", createdAt := "2024-01-01", status := "Ready" }

/-- A client whose project-list fetch fails and whose other scopes are empty. -/
def clientOneOrg : ApiClient :=
  { getAllOrganizations := Except.ok [orgAcme]
    getAllEnvironments := fun _ => Except.ok []
    getAllDataplanes := fun _ => Except.ok []
    getAllProjects := fun _ => Except.error "boom"
    getAllComponents := fun _ _ => Except.ok []
    getComponent := fun _ _ _ => Except.error "nope"
    listCTDs := fun _ => Except.ok { items := [], totalCount := 0 }
    getCTDWithSchema := fun _ _ => Except.error "nope" }

/-- A provider with the default owner used in the examples. -/
def provDefault : Provider := { defaultOwner := "developers" }

/-- The mutation `clientOneOrg` produces: the single domain entity. -/
def itemsOneOrg : List MutationItem :=
  [{ entity := translateOrganizationToDomain provDefault orgAcme,
     locationKey := providerKey }]

theorem C8_witness :
    clientOneOrg.getAllOrganizations = Except.ok [orgAcme] ∧
    orgAcme ∈ [orgAcme] ∧
    clientOneOrg.getAllProjects orgAcme.name = Except.error "boom" ∧
    run provDefault clientOneOrg = some ((runEntities provDefault clientOneOrg
      [orgAcme]).map (fun e => { entity := e, locationKey := providerKey })) ∧
    projectScope provDefault clientOneOrg orgAcme = [] :=
  ⟨rfl, List.mem_singleton.mpr rfl, rfl,
   (C8_isolated provDefault clientOneOrg [orgAcme] orgAcme "boom" rfl
      (List.mem_singleton.mpr rfl) rfl).1,
   (C8_isolated provDefault clientOneOrg [orgAcme] orgAcme "boom" rfl
      (List.mem_singleton.mpr rfl) rfl).2.1⟩

/-- The `(kind, namespace, name)` key of an entity. -/
def entityKey (e : Entity) : String × Option String × String :=
  (e.kind, e.metadata.nspace, e.metadata.name)

/-- The sub-list of entities carrying one key, in accumulation order. -/
def keyedSlice (l : List Entity) (k : String × Option String × String) :
    List Entity :=
  l.filter (fun e => decide (entityKey e = k))

/-- C9: two runs against the same upstream responses produce mutations whose
entity sets agree under `(kind, namespace, name)`-keyed comparison: the same
key sequence and, for every key, content-identical entity slices. -/
theorem C9_idempotent (p : Provider) (c : ApiClient)
    (items1 items2 : List MutationItem)
    (h1 : run p c = some items1) (h2 : run p c = some items2) :
    items1.map (fun it => entityKey it.entity) =
      items2.map (fun it => entityKey it.entity) ∧
    ∀ k, keyedSlice (items1.map MutationItem.entity) k =
      keyedSlice (items2.map MutationItem.entity) k := by
  have h : items1 = items2 := by
    rw [h1] at h2
    exact Option.some.inj h2
  subst h
  exact ⟨rfl, fun _ => rfl⟩

theorem C9_witness :
    run provDefault clientOneOrg = some itemsOneOrg ∧
    (itemsOneOrg.map (fun it => entityKey it.entity) =
      itemsOneOrg.map (fun it => entityKey it.entity) ∧
    ∀ k, keyedSlice (itemsOneOrg.map MutationItem.entity) k =
      keyedSlice (itemsOneOrg.map MutationItem.entity) k) :=
  ⟨rfl, C9_idempotent provDefault clientOneOrg itemsOneOrg itemsOneOrg rfl rfl⟩

/-- C10: every item of a committed mutation carries the provider location key,
and its entity carries both managed-by annotations set to that same key. -/
theorem C10_managed_by (p : Provider) (c : ApiClient)
    (items : List MutationItem) (h : run p c = some items) :
    ∀ it ∈ items,
      it.locationKey = providerKey ∧
      annGet it.entity.metadata.annotations
        "backstage.io/managed-by-location" = some providerKey ∧
      annGet it.entity.metadata.annotations
        "backstage.io/managed-by-origin-location" = some providerKey := by
  intro it hit
  unfold run at h
  cases horgs : c.getAllOrganizations with
  | error e => rw [horgs] at h; simp at h
  | ok orgs =>
    rw [horgs] at h
    have h2 := Option.some.inj h
    rw [← h2] at hit
    rw [List.mem_map] at hit
    obtain ⟨e, hin, heq⟩ := hit
    have hm := runEntities_marked p c orgs e hin
    cases heq
    exact ⟨rfl, hm.1, hm.2⟩

theorem C10_witness :
    run provDefault clientOneOrg = some itemsOneOrg ∧
    ∀ it ∈ itemsOneOrg,
      it.locationKey = providerKey ∧
      annGet it.entity.metadata.annotations
        "backstage.io/managed-by-location" = some providerKey ∧
      annGet it.entity.metadata.annotations
        "backstage.io/managed-by-origin-location" = some providerKey :=
  ⟨rfl, C10_managed_by provDefault clientOneOrg itemsOneOrg rfl⟩
